import Mathlib

/-!
# gebaar: gesture classification and trigger logic

A shallow embedding of `src/io/input.cpp`, of the `settings` struct and the
map `SWIPE_COMMANDS` of `src/config/config.h` and of `Config::get_command` of
`src/config/config.cpp`, and theorems about them.

Modelling conventions.
* `double` values are exact rationals (`ℚ`); `int` values are integers (`Int`).
  The unqualified `abs` on doubles is the absolute value.
* Every member function of `gebaar::io::Input` becomes a function from the part
  of the object it touches to the new value of that part, paired with the list
  of externally visible effects it performed, in order.
* `input.h` is not among the sources. Whatever `input.cpp` takes from it (the
  numeric constants, `inc_step`, `dec_step`, and the values that
  value-initialisation `= {}` gives to the scalar members of the three event
  structs) is collected in the parameter `InputH`.
-/

namespace Gebaar

/-! ## Data model -/

/-- The `settings` struct of `gebaar::config::Config` (config.h, lines 49-56). -/
structure settings where
  pinch_one_shot : Bool
  pinch_threshold : ℚ
  swipe_one_shot : Bool
  swipe_threshold : ℚ
  swipe_trigger_on_release : Bool
deriving DecidableEq, Repr

/-- The enum `pinch` of `gebaar::config::Config` (config.h, line 58). -/
inductive pinch where
  | PINCH_IN
  | PINCH_OUT
deriving DecidableEq, Repr

/-- The members of `gesture_swipe_event` that input.cpp reads or writes. -/
structure gesture_swipe_event where
  fingers : Int
  x : ℚ
  y : ℚ
  executed : Bool
  step : Int
deriving DecidableEq, Repr

/-- The members of `gesture_pinch_event` that input.cpp reads or writes. -/
structure gesture_pinch_event where
  fingers : Int
  scale : ℚ
  executed : Bool
  step : Int
deriving DecidableEq, Repr

/-- A `std::map<int, std::pair<double, double>>`, kept as an association list
in increasing key order (the iteration order of the map). -/
abbrev slot_map := List (Int × (ℚ × ℚ))

/-- The members of `touch_swipe_event` that input.cpp reads or writes. The two
vectors hold pairs (slot, time); the two maps are keyed by slot. -/
structure touch_swipe_event where
  fingers : Int
  up_slots : List (Int × ℚ)
  down_slots : List (Int × ℚ)
  prev_xy : slot_map
  delta_xy : slot_map
  isClean : Bool
deriving DecidableEq, Repr

/-- The declarations of `input.h` used by input.cpp. The header is not among
the sources, so its content is a parameter: the four constants, the two step
helpers, and the value that `= {}` gives to each event struct (the scalar
members may carry default member initialisers; the vectors and maps of
`touch_swipe_event` are value-initialised empty). -/
structure InputH where
  DEFAULT_SCALE : ℚ
  SWIPE_X_THRESHOLD : ℚ
  SWIPE_Y_THRESHOLD : ℚ
  THRESH : ℚ
  inc_step : Int → Int
  dec_step : Int → Int
  swipe_init : gesture_swipe_event
  pinch_init : gesture_pinch_event
  touch_fingers_init : Int
  touch_isClean_init : Bool

/-- The value of `touch_swipe_event = {}`. -/
def InputH.touch_init (H : InputH) : touch_swipe_event :=
  { fingers := H.touch_fingers_init
    up_slots := []
    down_slots := []
    prev_xy := []
    delta_xy := []
    isClean := H.touch_isClean_init }

/-- What the handlers do to the outside world, in program order. -/
inductive Effect where
  /-- A call `apply_swipe(swipe_type, fingers)`: the trigger handed to
  `config->get_command`. -/
  | swipe (swipe_type : Int) (fingers : Int)
  /-- A call `apply_swipe(swipe_type, fingers)` in which the local
  `swipe_type` was never assigned. -/
  | swipe_unassigned (fingers : Int)
  /-- A call `std::system(config->pinch_commands[kind].c_str())`. -/
  | pinch_command (kind : pinch)
deriving DecidableEq, Repr

/-- The fields of a gesture event that the handlers read through the libinput
getters (`libinput_event_gesture_get_finger_count`, `..._get_dx_unaccelerated`,
`..._get_dy_unaccelerated`, `..._get_scale`). -/
structure libinput_event_gesture where
  finger_count : Int
  dx_unaccelerated : ℚ
  dy_unaccelerated : ℚ
  scale : ℚ
deriving DecidableEq, Repr

/-- The fields of a touch event that the handlers read through the libinput
getters (`libinput_event_touch_get_slot`, `..._get_time`, `..._get_x`,
`..._get_y`). -/
structure libinput_event_touch where
  slot : Int
  time : ℚ
  x : ℚ
  y : ℚ
deriving DecidableEq, Repr

/-- The event types on which `handle_event` acts; every other type of the
switch is `OTHER`. -/
inductive libinput_event where
  | GESTURE_SWIPE_BEGIN (gev : libinput_event_gesture)
  | GESTURE_SWIPE_UPDATE (gev : libinput_event_gesture)
  | GESTURE_SWIPE_END (gev : libinput_event_gesture)
  | GESTURE_PINCH_BEGIN (gev : libinput_event_gesture)
  | GESTURE_PINCH_UPDATE (gev : libinput_event_gesture)
  | GESTURE_PINCH_END (gev : libinput_event_gesture)
  | TOUCH_DOWN (tev : libinput_event_touch)
  | TOUCH_UP (tev : libinput_event_touch)
  | TOUCH_MOTION (tev : libinput_event_touch)
  | OTHER
deriving DecidableEq, Repr

/-- The mutable members of `gebaar::io::Input` that the handlers use. -/
structure Input where
  gesture_swipe_event : gesture_swipe_event
  touch_swipe_event : touch_swipe_event
  gesture_pinch_event : gesture_pinch_event
  swipe_event_group : String
deriving DecidableEq, Repr

/-! ## Helpers for C++ conversions and containers -/

/-- Conversion of a `double` to `int`: the fractional part is discarded
(truncation towards zero). Values outside the range of `int` are not modelled. -/
def double_to_int (q : ℚ) : Int :=
  if 0 ≤ q then ⌊q⌋ else ⌈q⌉

/-- The call `m.find(k)` on a map, as the mapped value when the key is present. -/
def map_find (m : slot_map) (k : Int) : Option (ℚ × ℚ) :=
  match m with
  | [] => none
  | (k', v) :: rest => if k' = k then some v else map_find rest k

/-- The call `m.insert({k, v})` on a map: no change when the key is present,
otherwise the entry is placed at its position in key order. -/
def map_insert (m : slot_map) (k : Int) (v : ℚ × ℚ) : slot_map :=
  match m with
  | [] => [(k, v)]
  | (k', v') :: rest =>
    if k' = k then (k', v') :: rest
    else if k < k' then (k, v) :: (k', v') :: rest
    else (k', v') :: map_insert rest k v

/-- The assignment `m.find(k)->second = v` for a key that is present. -/
def map_assign (m : slot_map) (k : Int) (v : ℚ × ℚ) : slot_map :=
  match m with
  | [] => []
  | (k', v') :: rest =>
    if k' = k then (k', v) :: rest else (k', v') :: map_assign rest k v

/-! ## input.cpp -/

set_option linter.dupNamespace false in
/-- The constructor `Input::Input` (input.cpp, lines 28-35). The string
`swipe_event_group` is default-constructed empty. -/
def Input.Input (H : InputH) : Input :=
  { gesture_swipe_event := H.swipe_init
    touch_swipe_event := H.touch_init
    gesture_pinch_event := { H.pinch_init with scale := H.DEFAULT_SCALE }
    swipe_event_group := "" }

/-- The local constant `OBLIQUE_RATIO = 0.414` of `get_swipe_type`. -/
def OBLIQUE_RATIO : ℚ := 414 / 1000

/-- The function `get_swipe_type` (input.cpp, lines 48-76). A division by
zero happens only at (0, 0), in the else branch; there the comparison with
`OBLIQUE_RATIO` is false both for the floating-point quotient (NaN) and for
the rational quotient (0 / 0 = 0). -/
def get_swipe_type (sdx sdy : ℚ) : Int :=
  let x := sdx
  let y := sdy
  let swipe_type : Int := 5
  if |x| > |y| then
    let swipe_type := swipe_type + (if x < 0 then -1 else 1)
    if |y| / |x| > OBLIQUE_RATIO then
      swipe_type + (if y < 0 then -3 else 3)
    else swipe_type
  else
    let swipe_type := swipe_type + (if y < 0 then -3 else 3)
    if |x| / |y| > OBLIQUE_RATIO then
      swipe_type + (if x < 0 then -1 else 1)
    else swipe_type

/-- The function `apply_swipe` (input.cpp, lines 78-85): the trigger
(swipe_type, fingers) is handed to `config->get_command`, whose non-empty
result is run. -/
def apply_swipe (swipe_type : Int) (fingers : Int) : List Effect :=
  [Effect.swipe swipe_type fingers]

/-- The function `check_multitouch_down_up` (input.cpp, lines 98-115). -/
def check_multitouch_down_up (H : InputH) (t : touch_swipe_event)
    (slots : List (Int × ℚ)) : touch_swipe_event :=
  if t.isClean && decide (slots.length > 1) then
    match slots.reverse with
    | iter :: prev_iter :: _ =>
      let timebetweenslots := iter.2 - prev_iter.2
      if timebetweenslots ≤ H.THRESH then
        { t with fingers := (slots.length : Int) }
      else
        { t with isClean := false }
    | _ => t
  else t

/-- The function `handle_touch_event_down` (input.cpp, lines 124-129). -/
def handle_touch_event_down (H : InputH) (t : touch_swipe_event)
    (tev : libinput_event_touch) : touch_swipe_event :=
  let t := { t with down_slots := t.down_slots ++ [(tev.slot, tev.time)] }
  check_multitouch_down_up H t t.down_slots

/-- The state of the while loop of `handle_touch_event_up` (lines 151-165):
the vector `swipes`, the local `swipe_type` (`none` while unassigned) and
`touch_swipe_event.isClean`. -/
structure swipe_loop_state where
  swipes : List Int
  swipe_type : Option Int
  isClean : Bool
deriving DecidableEq, Repr

/-- The while loop of `handle_touch_event_up` (input.cpp, lines 153-165) over
the entries of `delta_xy` from the iterator position to the end. -/
def swipe_loop (entries : slot_map) (st : swipe_loop_state) : swipe_loop_state :=
  match entries with
  | [] => st
  | (_, (x, y)) :: rest =>
    let swipe_type := get_swipe_type x y
    let isClean :=
      match st.swipes.getLast? with
      | some back => if swipe_type ≠ back then false else st.isClean
      | none => st.isClean
    swipe_loop rest
      { swipes := st.swipes ++ [swipe_type], swipe_type := some swipe_type, isClean := isClean }

/-- The function `handle_touch_event_up` (input.cpp, lines 141-199). -/
def handle_touch_event_up (H : InputH) (t : touch_swipe_event)
    (tev : libinput_event_touch) : touch_swipe_event × List Effect :=
  let t := { t with up_slots := t.up_slots ++ [(tev.slot, tev.time)] }
  let t := check_multitouch_down_up H t t.up_slots
  if t.up_slots.length = t.down_slots.length then
    let st := swipe_loop t.delta_xy { swipes := [], swipe_type := none, isClean := t.isClean }
    let isClean := if t.down_slots.length ≠ t.delta_xy.length then false else st.isClean
    let effects :=
      if isClean then
        match st.swipe_type with
        | some swipe_type => apply_swipe swipe_type t.fingers
        | none => [Effect.swipe_unassigned t.fingers]
      else []
    (H.touch_init, effects)
  else (t, [])

/-- The function `handle_touch_event_motion` (input.cpp, lines 211-235). In the
else branch `prev_xy.find(slot)` is dereferenced; a slot present in `delta_xy`
is present in `prev_xy` in every state the handlers build from the empty maps,
and for other states the missing entry is read as (0, 0). -/
def handle_touch_event_motion (t : touch_swipe_event)
    (tev : libinput_event_touch) : touch_swipe_event :=
  match map_find t.delta_xy tev.slot with
  | none =>
    { t with
      delta_xy := map_insert t.delta_xy tev.slot (0, 0)
      prev_xy := map_insert t.prev_xy tev.slot (tev.x, tev.y) }
  | some _ =>
    let prevcoord := (map_find t.prev_xy tev.slot).getD (0, 0)
    let prevx := prevcoord.1
    let prevy := prevcoord.2
    { t with
      delta_xy := map_assign t.delta_xy tev.slot (tev.x - prevx, tev.y - prevy)
      prev_xy := map_assign t.prev_xy tev.slot (tev.x, tev.y) }

/-- The function `reset_swipe_event` (input.cpp, lines 240-243). -/
def reset_swipe_event (H : InputH) : gesture_swipe_event :=
  { H.swipe_init with executed := false }

/-- The function `reset_pinch_event` (input.cpp, lines 248-252). -/
def reset_pinch_event (H : InputH) : gesture_pinch_event :=
  { H.pinch_init with scale := H.DEFAULT_SCALE, executed := false }

/-- The function `handle_one_shot_pinch` (input.cpp, lines 258-276). -/
def handle_one_shot_pinch (cfg : settings) (p : gesture_pinch_event)
    (new_scale : ℚ) : gesture_pinch_event × List Effect :=
  if new_scale > p.scale then
    if new_scale > 1 + cfg.pinch_threshold then
      ({ p with executed := true }, [Effect.pinch_command pinch.PINCH_IN])
    else (p, [])
  else
    if p.scale < 1 - cfg.pinch_threshold then
      ({ p with executed := true }, [Effect.pinch_command pinch.PINCH_OUT])
    else (p, [])

/-- The function `handle_continouos_pinch` (input.cpp, lines 283-303). -/
def handle_continouos_pinch (H : InputH) (cfg : settings) (p : gesture_pinch_event)
    (new_scale : ℚ) : gesture_pinch_event × List Effect :=
  let step : Int := if p.step = 0 then p.step + 1 else p.step
  let trigger : ℚ := 1 + cfg.pinch_threshold * (step : ℚ)
  if new_scale > p.scale then
    if new_scale ≥ trigger then
      ({ p with step := H.inc_step p.step }, [Effect.pinch_command pinch.PINCH_IN])
    else (p, [])
  else
    if new_scale ≤ trigger then
      ({ p with step := H.dec_step p.step }, [Effect.pinch_command pinch.PINCH_OUT])
    else (p, [])

/-- The function `handle_pinch_event` (input.cpp, lines 311-325). -/
def handle_pinch_event (H : InputH) (cfg : settings) (p : gesture_pinch_event)
    (gev : libinput_event_gesture) (begin : Bool) : gesture_pinch_event × List Effect :=
  if begin then
    ({ reset_pinch_event H with fingers := gev.finger_count }, [])
  else
    let new_scale := gev.scale
    let r1 :=
      if cfg.pinch_one_shot && !p.executed then handle_one_shot_pinch cfg p new_scale
      else (p, [])
    let r2 :=
      if !cfg.pinch_one_shot then handle_continouos_pinch H cfg r1.1 new_scale
      else (r1.1, [])
    ({ r2.1 with scale := new_scale }, r1.2 ++ r2.2)

/-- The function `trigger_swipe_command` (input.cpp, lines 377-384). -/
def trigger_swipe_command (H : InputH) (s : gesture_swipe_event) :
    gesture_swipe_event × List Effect :=
  let x := s.x
  let y := s.y
  let swipe_type := get_swipe_type x y
  (H.swipe_init, apply_swipe swipe_type s.fingers)

/-- The function `handle_swipe_event_without_coords` (input.cpp, lines 335-348). -/
def handle_swipe_event_without_coords (H : InputH) (cfg : settings)
    (s : gesture_swipe_event) (gev : libinput_event_gesture) (begin : Bool) :
    gesture_swipe_event × List Effect :=
  if begin then
    ({ s with fingers := gev.finger_count }, [])
  else
    let r :=
      if !s.executed && cfg.swipe_trigger_on_release then trigger_swipe_command H s
      else (s, [])
    (reset_swipe_event H, r.2)

/-- The function `handle_swipe_event_with_coords` (input.cpp, lines 354-371). -/
def handle_swipe_event_with_coords (H : InputH) (cfg : settings)
    (s : gesture_swipe_event) (gev : libinput_event_gesture) :
    gesture_swipe_event × List Effect :=
  if cfg.swipe_one_shot && s.executed then (s, [])
  else
    let threshold_x : Int :=
      double_to_int (cfg.swipe_threshold * H.SWIPE_X_THRESHOLD * (s.step : ℚ))
    let threshold_y : Int :=
      double_to_int (cfg.swipe_threshold * H.SWIPE_Y_THRESHOLD * (s.step : ℚ))
    let s := { s with x := s.x + gev.dx_unaccelerated }
    let s := { s with y := s.y + gev.dy_unaccelerated }
    if |s.x| > (threshold_x : ℚ) ∨ |s.y| > (threshold_y : ℚ) then
      let r := trigger_swipe_command H s
      let s := { r.1 with executed := true }
      ({ s with step := H.inc_step s.step }, r.2)
    else (s, [])

/-- The function `check_chosen_event` (input.cpp, lines 444-449). -/
def check_chosen_event (i : Input) (ev : String) : Bool :=
  i.swipe_event_group == ev

/-- The body of the loop of `handle_event` (input.cpp, lines 457-544) for one
event taken from libinput. -/
def handle_event (H : InputH) (cfg : settings) (i : Input) (ev : libinput_event) :
    Input × List Effect :=
  match ev with
  | .GESTURE_SWIPE_BEGIN gev =>
    if check_chosen_event i "GESTURE" then
      let r := handle_swipe_event_without_coords H cfg i.gesture_swipe_event gev true
      ({ i with gesture_swipe_event := r.1 }, r.2)
    else (i, [])
  | .GESTURE_SWIPE_UPDATE gev =>
    if check_chosen_event i "GESTURE" then
      let r := handle_swipe_event_with_coords H cfg i.gesture_swipe_event gev
      ({ i with gesture_swipe_event := r.1 }, r.2)
    else (i, [])
  | .GESTURE_SWIPE_END gev =>
    if check_chosen_event i "GESTURE" then
      let r := handle_swipe_event_without_coords H cfg i.gesture_swipe_event gev false
      ({ i with gesture_swipe_event := r.1 }, r.2)
    else (i, [])
  | .GESTURE_PINCH_BEGIN gev =>
    let r := handle_pinch_event H cfg i.gesture_pinch_event gev true
    ({ i with gesture_pinch_event := r.1 }, r.2)
  | .GESTURE_PINCH_UPDATE gev =>
    let r := handle_pinch_event H cfg i.gesture_pinch_event gev false
    ({ i with gesture_pinch_event := r.1 }, r.2)
  | .GESTURE_PINCH_END gev =>
    let r := handle_pinch_event H cfg i.gesture_pinch_event gev false
    ({ i with gesture_pinch_event := r.1 }, r.2)
  | .TOUCH_DOWN tev =>
    if check_chosen_event i "TOUCH" then
      ({ i with touch_swipe_event := handle_touch_event_down H i.touch_swipe_event tev }, [])
    else (i, [])
  | .TOUCH_UP tev =>
    if check_chosen_event i "TOUCH" then
      let r := handle_touch_event_up H i.touch_swipe_event tev
      ({ i with touch_swipe_event := r.1 }, r.2)
    else (i, [])
  | .TOUCH_MOTION tev =>
    if check_chosen_event i "TOUCH" then
      ({ i with touch_swipe_event := handle_touch_event_motion i.touch_swipe_event tev }, [])
    else (i, [])
  | .OTHER => (i, [])

/-- A run of `handle_swipe_event_with_coords` over successive swipe update
events of one gesture; the effects are concatenated in order. -/
def swipe_updates (H : InputH) (cfg : settings) (s : gesture_swipe_event)
    (gevs : List libinput_event_gesture) : gesture_swipe_event × List Effect :=
  match gevs with
  | [] => (s, [])
  | gev :: rest =>
    let r := handle_swipe_event_with_coords H cfg s gev
    let r' := swipe_updates H cfg r.1 rest
    (r'.1, r.2 ++ r'.2)

/-- A run of `handle_pinch_event` with `begin = false` over successive pinch
update events of one gesture; the effects are concatenated in order. -/
def pinch_updates (H : InputH) (cfg : settings) (p : gesture_pinch_event)
    (gevs : List libinput_event_gesture) : gesture_pinch_event × List Effect :=
  match gevs with
  | [] => (p, [])
  | gev :: rest =>
    let r := handle_pinch_event H cfg p gev false
    let r' := pinch_updates H cfg r.1 rest
    (r'.1, r.2 ++ r'.2)

/-- The three touch cases of `handle_event` (input.cpp, lines 505-522) on the
touch session alone, once `check_chosen_event("TOUCH")` holds; every other
event leaves the session as it is. -/
def handle_touch_event (H : InputH) (t : touch_swipe_event) (ev : libinput_event) :
    touch_swipe_event × List Effect :=
  match ev with
  | .TOUCH_DOWN tev => (handle_touch_event_down H t tev, [])
  | .TOUCH_UP tev => handle_touch_event_up H t tev
  | .TOUCH_MOTION tev => (handle_touch_event_motion t tev, [])
  | _ => (t, [])

/-- A run of `handle_touch_event` over successive events; the effects are
concatenated in order. -/
def touch_run (H : InputH) (t : touch_swipe_event) (evs : List libinput_event) :
    touch_swipe_event × List Effect :=
  match evs with
  | [] => (t, [])
  | ev :: rest =>
    let r := handle_touch_event H t ev
    let r' := touch_run H r.1 rest
    (r'.1, r.2 ++ r'.2)

/-! ## config.h and config.cpp -/

/-- The macro `MAX_DIRECTION` (config.h, line 33). -/
def MAX_DIRECTION : Int := 9

/-- The macro `MIN_DIRECTION` (config.h, line 34). -/
def MIN_DIRECTION : Int := 1

/-- The map `SWIPE_COMMANDS` (config.h, lines 36-38). -/
def SWIPE_COMMANDS : List (Int × String) :=
  [(1, "left_up"), (2, "up"), (3, "right_up"), (4, "left"),
    (6, "right"), (7, "left_down"), (8, "down"), (9, "right_down")]

/-- The call `SWIPE_COMMANDS.at(k)`; `none` stands for the exception
`std::out_of_range` thrown for a key that is not in the map. -/
def SWIPE_COMMANDS_at (k : Int) : Option String :=
  SWIPE_COMMANDS.lookup k

/-- The member `commands` of `Config`, a
`std::map<int, std::map<std::string, std::string>>`. -/
abbrev command_table := List (Int × List (String × String))

/-- The function `Config::get_command` (config.cpp, lines 140-151); `none`
stands for the exception thrown by `SWIPE_COMMANDS.at`. The inner
`operator[]` yields the empty string for a name without an entry. -/
def get_command (commands : command_table) (fingers swipe_type : Int) : Option String :=
  if fingers > 1 ∧ swipe_type ≥ MIN_DIRECTION ∧ swipe_type ≤ MAX_DIRECTION then
    match commands.lookup fingers with
    | some per_finger =>
      match SWIPE_COMMANDS_at swipe_type with
      | some name => some ((per_finger.lookup name).getD "")
      | none => none
    | none => some ""
  else some ""

/-! ## The two branches of the classifier -/

/-- The then-branch of `get_swipe_type` (input.cpp, lines 59-65), taken when
`abs(x) > abs(y)`. -/
def x_dominant_branch (x y : ℚ) : Int :=
  let swipe_type : Int := 5
  let swipe_type := swipe_type + (if x < 0 then -1 else 1)
  if |y| / |x| > OBLIQUE_RATIO then
    swipe_type + (if y < 0 then -3 else 3)
  else swipe_type

/-- The else-branch of `get_swipe_type` (input.cpp, lines 67-73), taken when
`abs(x) > abs(y)` does not hold. -/
def y_dominant_branch (x y : ℚ) : Int :=
  let swipe_type : Int := 5
  let swipe_type := swipe_type + (if y < 0 then -3 else 3)
  if |x| / |y| > OBLIQUE_RATIO then
    swipe_type + (if x < 0 then -1 else 1)
  else swipe_type

/-! ## Vocabulary for statements about event sequences -/

/-- The pairs (slot, time) of the touch-down events of a sequence, in order. -/
def down_stamps (evs : List libinput_event) : List (Int × ℚ) :=
  match evs with
  | [] => []
  | .TOUCH_DOWN tev :: rest => (tev.slot, tev.time) :: down_stamps rest
  | _ :: rest => down_stamps rest

/-- The pairs (slot, time) of the touch-up events of a sequence, in order. -/
def up_stamps (evs : List libinput_event) : List (Int × ℚ) :=
  match evs with
  | [] => []
  | .TOUCH_UP tev :: rest => (tev.slot, tev.time) :: up_stamps rest
  | _ :: rest => up_stamps rest

/-- The later of two stamps is at most `THRESH` after the earlier one. -/
def within_thresh (H : InputH) (a b : Int × ℚ) : Prop :=
  b.2 - a.2 ≤ H.THRESH

/-- No touch-up event of the sequence makes the number of up-events equal to
the number of down-events, counted from `nd` down-events and `nu` up-events
already seen: the session stays open throughout the sequence. -/
def no_early_balance (nd nu : Nat) (evs : List libinput_event) : Bool :=
  match evs with
  | [] => true
  | .TOUCH_DOWN _ :: rest => no_early_balance (nd + 1) nu rest
  | .TOUCH_UP _ :: rest => (nu + 1 != nd) && no_early_balance nd (nu + 1) rest
  | _ :: rest => no_early_balance nd nu rest

/-! ## Reference definitions taken from the specification -/

/-- The 3x3 compass grid `1 2 3 / 4 5 6 / 7 8 9` of the specification, indexed
by the horizontal position (negative = left column, positive = right column)
and the vertical position (negative = top row, positive = bottom row). -/
def compass_grid : SignType → SignType → Int
  | .neg, .neg => 1
  | .zero, .neg => 2
  | .pos, .neg => 3
  | .neg, .zero => 4
  | .zero, .zero => 5
  | .pos, .zero => 6
  | .neg, .pos => 7
  | .zero, .pos => 8
  | .pos, .pos => 9

/-- The reference compass of the specification, written from its words and not
from the code: the primary direction lies along the axis of larger magnitude
(x when |dx| > |dy|, y otherwise) on the side given by the sign of that
component, and the result moves to the adjacent diagonal, on the side given by
the sign of the minor component, exactly when minor / major > 0.414. -/
def compass_reference (dx dy : ℚ) : Int :=
  if |dx| > |dy| then
    compass_grid (SignType.sign dx) (if |dy| / |dx| > 414 / 1000 then SignType.sign dy else 0)
  else
    compass_grid (if |dx| / |dy| > 414 / 1000 then SignType.sign dx else 0) (SignType.sign dy)

/-! ## A concrete header for evaluating the code at explicit inputs -/

/-- Modelled from the spec: `input.h` is not among the sources. This instance
is used only to run the code at explicit inputs. The neutral scale is 1.0, the
two axis scale constants differ, a fresh touch session is clean, the step
helpers move the counter by one and skip zero, and every other scalar member
is zero or false after `= {}`, as for a struct without default member
initialisers. The numeric values 1000, 500 and 100 are representative. -/
def input_h : InputH :=
  { DEFAULT_SCALE := 1
    SWIPE_X_THRESHOLD := 1000
    SWIPE_Y_THRESHOLD := 500
    THRESH := 100
    inc_step := fun cur => if cur + 1 = 0 then cur + 2 else cur + 1
    dec_step := fun cur => if cur - 1 = 0 then cur - 2 else cur - 1
    swipe_init := { fingers := 0, x := 0, y := 0, executed := false, step := 0 }
    pinch_init := { fingers := 0, scale := 0, executed := false, step := 0 }
    touch_fingers_init := 0
    touch_isClean_init := true }

/-! ## Explicit inputs used in the evaluations below -/

/-- A configuration with `swipe.settings.threshold = 0.3333`, one-shot swipes
and the default pinch settings. -/
def settings_fractional : settings :=
  { pinch_one_shot := false
    pinch_threshold := 1 / 4
    swipe_one_shot := true
    swipe_threshold := 3333 / 10000
    swipe_trigger_on_release := true }

/-- The default swipe settings of `load_config` (threshold 0.5, one-shot,
trigger on release) with one-shot pinches of threshold 0.25. -/
def settings_one_shot : settings :=
  { pinch_one_shot := true
    pinch_threshold := 1 / 4
    swipe_one_shot := true
    swipe_threshold := 1 / 2
    swipe_trigger_on_release := true }

/-- The configuration `settings_one_shot` with `swipe.settings.one_shot = false`. -/
def settings_continuous : settings :=
  { settings_one_shot with swipe_one_shot := false }

/-- A swipe update event moving by (dx, dy). -/
def swipe_update_by (dx dy : ℚ) : libinput_event_gesture :=
  { finger_count := 3, dx_unaccelerated := dx, dy_unaccelerated := dy, scale := 1 }

/-- A gesture event reporting `n` fingers and scale `sc`, without motion. -/
def gesture_with (n : Int) (sc : ℚ) : libinput_event_gesture :=
  { finger_count := n, dx_unaccelerated := 0, dy_unaccelerated := 0, scale := sc }

/-- A swipe in progress: three fingers, nothing accumulated, not yet fired,
step 1. -/
def swipe_in_progress : gesture_swipe_event :=
  { fingers := 3, x := 0, y := 0, executed := false, step := 1 }

/-- A swipe state that has accumulated (5, 7), has fired, and is at step 4. -/
def swipe_used : gesture_swipe_event :=
  { fingers := 2, x := 5, y := 7, executed := true, step := 4 }

/-- A touch session in which slot 0 went down at time 10 and moved from
(100, 100) to (160, 100). -/
def touch_one_down : touch_swipe_event :=
  { fingers := 0
    up_slots := []
    down_slots := [(0, 10)]
    prev_xy := [(0, (160, 100))]
    delta_xy := [(0, (60, 0))]
    isClean := true }

/-- The touch event of slot 0 at time 50 and position (160, 100). -/
def touch_up_at_50 : libinput_event_touch :=
  { slot := 0, time := 50, x := 160, y := 100 }

/-- The default pinch settings of `load_config` (threshold 0.25, continuous)
with the default swipe settings. -/
def settings_pinch_continuous : settings :=
  { settings_one_shot with pinch_one_shot := false }

/-- The pinch state that pinch begin with two fingers followed by one update
at scale 0.7 leaves under `settings_pinch_continuous` on the header `input_h`:
one pinch-out has run and the step is -1. -/
def pinch_shrunk_once : gesture_pinch_event :=
  { fingers := 2, scale := 7 / 10, executed := false, step := -1 }

/-- The touch event of slot `slot` at time `time` and position (x, y). -/
def touch_at (slot : Int) (time x y : ℚ) : libinput_event_touch :=
  { slot := slot, time := time, x := x, y := y }

/-- A two-finger swipe to the right up to, and without, the last up event:
slot 0 goes down at time 10 and slot 1 at time 50, both move right by 60, and
slot 0 lifts at time 300. -/
def touch_two_finger_swipe : List libinput_event :=
  [libinput_event.TOUCH_DOWN (touch_at 0 10 100 100),
    libinput_event.TOUCH_DOWN (touch_at 1 50 200 100),
    libinput_event.TOUCH_MOTION (touch_at 0 60 100 100),
    libinput_event.TOUCH_MOTION (touch_at 1 60 200 100),
    libinput_event.TOUCH_MOTION (touch_at 0 70 160 100),
    libinput_event.TOUCH_MOTION (touch_at 1 70 260 100),
    libinput_event.TOUCH_UP (touch_at 0 300 160 100)]

/-! ## The direction classifier -/

/-- C1: at the zero vector the code does not return 5 (centre): the comparison
`abs(x) > abs(y)` fails, the else branch adds 3, and the result is 8 (down). -/
theorem get_swipe_type_zero_vector : get_swipe_type 0 0 = 8 := by
  norm_num [get_swipe_type, OBLIQUE_RATIO]

/-- C2: the classifier is invariant under uniform positive scaling,
`get_swipe_type (k * dx) (k * dy) = get_swipe_type dx dy` for every `k > 0`. -/
theorem get_swipe_type_scale_invariant (dx dy k : ℚ) (hk : 0 < k) :
    get_swipe_type (k * dx) (k * dy) = get_swipe_type dx dy := by
  have hk0 : k ≠ 0 := ne_of_gt hk
  have hx : |k * dx| = k * |dx| := by rw [abs_mul, abs_of_pos hk]
  have hy : |k * dy| = k * |dy| := by rw [abs_mul, abs_of_pos hk]
  have hcmp : (k * |dx| > k * |dy|) ↔ (|dx| > |dy|) := by
    constructor
    · intro h; exact lt_of_mul_lt_mul_left h hk.le
    · intro h; exact mul_lt_mul_of_pos_left h hk
  have hsx : (k * dx < 0) ↔ (dx < 0) := by
    constructor
    · intro h
      by_contra hn
      exact absurd h (not_lt.mpr (mul_nonneg hk.le (not_lt.mp hn)))
    · intro h; exact mul_neg_of_pos_of_neg hk h
  have hsy : (k * dy < 0) ↔ (dy < 0) := by
    constructor
    · intro h
      by_contra hn
      exact absurd h (not_lt.mpr (mul_nonneg hk.le (not_lt.mp hn)))
    · intro h; exact mul_neg_of_pos_of_neg hk h
  have hr1 : k * |dy| / (k * |dx|) = |dy| / |dx| := mul_div_mul_left _ _ hk0
  have hr2 : k * |dx| / (k * |dy|) = |dx| / |dy| := mul_div_mul_left _ _ hk0
  simp only [get_swipe_type, hx, hy, hcmp, hsx, hsy, hr1, hr2]

/-- Witness for C2 at (dx, dy) = (3, 1) and k = 2. -/
theorem get_swipe_type_scale_invariant_witness :
    (0 : ℚ) < 2 ∧ get_swipe_type (2 * 3) (2 * 1) = get_swipe_type 3 1 :=
  ⟨by norm_num, get_swipe_type_scale_invariant 3 1 2 (by norm_num)⟩

/-- C3: away from the zero vector the classifier agrees with the reference
compass of the specification (primary direction along the axis of larger
magnitude by the sign of that component, adjacent diagonal by the sign of the
minor component exactly when minor / major > 0.414). -/
theorem get_swipe_type_eq_compass_reference (dx dy : ℚ) (h : (dx, dy) ≠ (0, 0)) :
    get_swipe_type dx dy = compass_reference dx dy := by
  have hO : OBLIQUE_RATIO = 414 / 1000 := rfl
  unfold get_swipe_type compass_reference
  simp only [hO]
  by_cases hc : |dx| > |dy|
  · have hx0 : dx ≠ 0 := by
      intro h0
      rw [h0, abs_zero] at hc
      exact absurd hc (not_lt.mpr (abs_nonneg dy))
    simp only [hc, if_true]
    by_cases hr : |dy| / |dx| > 414 / 1000
    · have hy0 : dy ≠ 0 := by
        intro h0
        rw [h0, abs_zero, zero_div] at hr
        norm_num at hr
      simp only [hr, if_true]
      rcases lt_or_gt_of_ne hx0 with hx | hx <;> rcases lt_or_gt_of_ne hy0 with hy | hy
      · simp [hx, hy, sign_neg, compass_grid]
      · simp [hx, hy, not_lt.mpr hy.le, sign_neg, sign_pos, compass_grid]
      · simp [hx, hy, not_lt.mpr hx.le, sign_neg, sign_pos, compass_grid]
      · simp [hx, hy, not_lt.mpr hx.le, not_lt.mpr hy.le, sign_pos, compass_grid]
    · simp only [hr, if_false]
      rcases lt_or_gt_of_ne hx0 with hx | hx
      · simp [hx, sign_neg, compass_grid]
      · simp [hx, not_lt.mpr hx.le, sign_pos, compass_grid]
  · have hy0 : dy ≠ 0 := by
      intro h0
      rw [h0, abs_zero] at hc
      have hx0 : dx = 0 := by
        by_contra hne
        exact hc (abs_pos.mpr hne)
      exact h (by rw [hx0, h0])
    simp only [hc, if_false]
    by_cases hr : |dx| / |dy| > 414 / 1000
    · have hx0 : dx ≠ 0 := by
        intro h0
        rw [h0, abs_zero, zero_div] at hr
        norm_num at hr
      simp only [hr, if_true]
      rcases lt_or_gt_of_ne hx0 with hx | hx <;> rcases lt_or_gt_of_ne hy0 with hy | hy
      · simp [hx, hy, sign_neg, compass_grid]
      · simp [hx, hy, not_lt.mpr hy.le, sign_neg, sign_pos, compass_grid]
      · simp [hx, hy, not_lt.mpr hx.le, sign_neg, sign_pos, compass_grid]
      · simp [hx, hy, not_lt.mpr hx.le, not_lt.mpr hy.le, sign_pos, compass_grid]
    · simp only [hr, if_false]
      rcases lt_or_gt_of_ne hy0 with hy | hy
      · simp [hy, sign_neg, compass_grid]
      · simp [hy, not_lt.mpr hy.le, sign_pos, compass_grid]

/-- Witness for C3 at (dx, dy) = (3, -2), which lies in the right-up diagonal. -/
theorem get_swipe_type_eq_compass_reference_witness :
    ((3 : ℚ), (-2 : ℚ)) ≠ (0, 0) ∧ get_swipe_type 3 (-2) = compass_reference 3 (-2) :=
  ⟨by norm_num, get_swipe_type_eq_compass_reference 3 (-2) (by norm_num)⟩


/-! ## The swipe tracker -/

/-- The body of `handle_swipe_event_with_coords` with the local variables and
the call of `trigger_swipe_command` substituted. -/
theorem handle_swipe_event_with_coords_unfold (H : InputH) (cfg : settings)
    (s : gesture_swipe_event) (gev : libinput_event_gesture) :
    handle_swipe_event_with_coords H cfg s gev =
      if (cfg.swipe_one_shot && s.executed) = true then (s, [])
      else if |s.x + gev.dx_unaccelerated| >
            ((double_to_int (cfg.swipe_threshold * H.SWIPE_X_THRESHOLD * (s.step : ℚ)) : Int) : ℚ) ∨
          |s.y + gev.dy_unaccelerated| >
            ((double_to_int (cfg.swipe_threshold * H.SWIPE_Y_THRESHOLD * (s.step : ℚ)) : Int) : ℚ)
        then
          ({ H.swipe_init with executed := true, step := H.inc_step H.swipe_init.step },
            [Effect.swipe
              (get_swipe_type (s.x + gev.dx_unaccelerated) (s.y + gev.dy_unaccelerated))
              s.fingers])
        else ({ s with x := s.x + gev.dx_unaccelerated, y := s.y + gev.dy_unaccelerated }, []) :=
  rfl

/-- An update that is swallowed (one-shot policy, already fired) returns the
state as it was and performs nothing. -/
theorem swipe_update_swallowed (H : InputH) (cfg : settings) (s : gesture_swipe_event)
    (gev : libinput_event_gesture) (hone : cfg.swipe_one_shot = true)
    (hex : s.executed = true) :
    handle_swipe_event_with_coords H cfg s gev = (s, []) := by
  simp [handle_swipe_event_with_coords, hone, hex]

/-- An update that performs something performs exactly one `apply_swipe`, on
the accumulated vector and the finger count of the state, and leaves a state
whose fired flag is set and whose finger count is the value-initialised one. -/
theorem swipe_update_fires (H : InputH) (cfg : settings) (s : gesture_swipe_event)
    (gev : libinput_event_gesture)
    (hne : (handle_swipe_event_with_coords H cfg s gev).2 ≠ []) :
    handle_swipe_event_with_coords H cfg s gev =
      ({ H.swipe_init with executed := true, step := H.inc_step H.swipe_init.step },
        [Effect.swipe
          (get_swipe_type (s.x + gev.dx_unaccelerated) (s.y + gev.dy_unaccelerated))
          s.fingers]) := by
  rw [handle_swipe_event_with_coords_unfold] at hne ⊢
  by_cases h1 : (cfg.swipe_one_shot && s.executed) = true
  · rw [if_pos h1] at hne
    exact absurd rfl hne
  · rw [if_neg h1] at hne ⊢
    by_cases h2 : |s.x + gev.dx_unaccelerated| >
            ((double_to_int (cfg.swipe_threshold * H.SWIPE_X_THRESHOLD * (s.step : ℚ)) : Int) : ℚ) ∨
          |s.y + gev.dy_unaccelerated| >
            ((double_to_int (cfg.swipe_threshold * H.SWIPE_Y_THRESHOLD * (s.step : ℚ)) : Int) : ℚ)
    · rw [if_pos h2]
    · rw [if_neg h2] at hne
      exact absurd rfl hne

/-- An update that performs nothing keeps the finger count and the fired flag. -/
theorem swipe_update_silent (H : InputH) (cfg : settings) (s : gesture_swipe_event)
    (gev : libinput_event_gesture)
    (hnil : (handle_swipe_event_with_coords H cfg s gev).2 = []) :
    (handle_swipe_event_with_coords H cfg s gev).1.fingers = s.fingers ∧
    (handle_swipe_event_with_coords H cfg s gev).1.executed = s.executed := by
  rw [handle_swipe_event_with_coords_unfold] at hnil ⊢
  by_cases h1 : (cfg.swipe_one_shot && s.executed) = true
  · rw [if_pos h1]
    exact ⟨rfl, rfl⟩
  · rw [if_neg h1] at hnil ⊢
    by_cases h2 : |s.x + gev.dx_unaccelerated| >
            ((double_to_int (cfg.swipe_threshold * H.SWIPE_X_THRESHOLD * (s.step : ℚ)) : Int) : ℚ) ∨
          |s.y + gev.dy_unaccelerated| >
            ((double_to_int (cfg.swipe_threshold * H.SWIPE_Y_THRESHOLD * (s.step : ℚ)) : Int) : ℚ)
    · rw [if_pos h2] at hnil
      exact absurd hnil (List.cons_ne_nil _ _)
    · rw [if_neg h2]
      exact ⟨rfl, rfl⟩

/-- A run of updates over a concatenation is the run over the first part
followed by the run over the second part. -/
theorem swipe_updates_append (H : InputH) (cfg : settings) (s : gesture_swipe_event)
    (as bs : List libinput_event_gesture) :
    swipe_updates H cfg s (as ++ bs) =
      ((swipe_updates H cfg (swipe_updates H cfg s as).1 bs).1,
        (swipe_updates H cfg s as).2 ++ (swipe_updates H cfg (swipe_updates H cfg s as).1 bs).2) := by
  induction as generalizing s with
  | nil => simp [swipe_updates]
  | cons a rest ih =>
    show swipe_updates H cfg s (a :: (rest ++ bs)) = _
    simp only [swipe_updates, ih, List.append_assoc]

/-- Under the one-shot policy a run of updates from a fired state changes
nothing and performs nothing. -/
theorem swipe_updates_swallowed (H : InputH) (cfg : settings) (s : gesture_swipe_event)
    (gevs : List libinput_event_gesture) (hone : cfg.swipe_one_shot = true)
    (hex : s.executed = true) :
    swipe_updates H cfg s gevs = (s, []) := by
  induction gevs with
  | nil => rfl
  | cons g rest ih =>
    simp only [swipe_updates, swipe_update_swallowed H cfg s g hone hex, ih, List.append_nil]

/-- A run of updates that performs nothing keeps the finger count and the
fired flag. -/
theorem swipe_updates_silent (H : InputH) (cfg : settings) (s : gesture_swipe_event)
    (gevs : List libinput_event_gesture)
    (hnil : (swipe_updates H cfg s gevs).2 = []) :
    (swipe_updates H cfg s gevs).1.fingers = s.fingers ∧
    (swipe_updates H cfg s gevs).1.executed = s.executed := by
  induction gevs generalizing s with
  | nil => exact ⟨rfl, rfl⟩
  | cons g rest ih =>
    simp only [swipe_updates, List.append_eq_nil] at hnil ⊢
    obtain ⟨h1, h2⟩ := ih _ hnil.2
    obtain ⟨h3, h4⟩ := swipe_update_silent H cfg s g hnil.1
    exact ⟨h1.trans h3, h2.trans h4⟩

/-- C4, counterexample: with `swipe.settings.threshold = 0.3333` and
`SWIPE_X_THRESHOLD = 1000` the product at step 1 is 333.3, stored in the `int`
`threshold_x` as 333. An update that brings x to 333.2 is not swallowed and
fires, although 333.2 does not exceed 333.3 and y = 0 does not exceed 166.65. -/
theorem swipe_update_fires_below_real_threshold :
    ¬ (settings_fractional.swipe_one_shot = true ∧ swipe_in_progress.executed = true) ∧
    (handle_swipe_event_with_coords input_h settings_fractional swipe_in_progress
        (swipe_update_by (1666 / 5) 0)).2 = [Effect.swipe 6 3] ∧
    ¬ (|swipe_in_progress.x + (swipe_update_by (1666 / 5) 0).dx_unaccelerated| >
          settings_fractional.swipe_threshold * input_h.SWIPE_X_THRESHOLD *
            (swipe_in_progress.step : ℚ) ∨
        |swipe_in_progress.y + (swipe_update_by (1666 / 5) 0).dy_unaccelerated| >
          settings_fractional.swipe_threshold * input_h.SWIPE_Y_THRESHOLD *
            (swipe_in_progress.step : ℚ)) := by
  refine ⟨by simp [swipe_in_progress], ?_, ?_⟩
  · have hx : double_to_int (3333 / 10) = 333 := by
      norm_num [double_to_int, Int.floor_eq_iff]
    have hy : double_to_int (3333 / 20) = 166 := by
      norm_num [double_to_int, Int.floor_eq_iff]
    norm_num [handle_swipe_event_with_coords, settings_fractional, swipe_in_progress,
      swipe_update_by, input_h, trigger_swipe_command, apply_swipe, get_swipe_type,
      OBLIQUE_RATIO, hx, hy, abs_eq_max_neg]
  · norm_num [settings_fractional, swipe_in_progress, swipe_update_by, input_h, abs_eq_max_neg]

/-- C4, amended: when the update is not swallowed, a trigger is performed
exactly when, after adding the deltas, |x| exceeds the integer
`threshold_x = (int)(swipe_threshold * SWIPE_X_THRESHOLD * step)` or |y| exceeds
the integer `threshold_y`; when it is performed it is the single call
`apply_swipe(get_swipe_type(x, y), fingers)` on the accumulated vector and the
finger count of the state, and the fired flag is set afterwards; when it is not
performed only the accumulated vector changes. -/
theorem swipe_update_trigger_iff (H : InputH) (cfg : settings) (s : gesture_swipe_event)
    (gev : libinput_event_gesture)
    (hns : ¬ (cfg.swipe_one_shot = true ∧ s.executed = true)) :
    ((handle_swipe_event_with_coords H cfg s gev).2 ≠ [] ↔
      (|s.x + gev.dx_unaccelerated| >
          ((double_to_int (cfg.swipe_threshold * H.SWIPE_X_THRESHOLD * (s.step : ℚ)) : Int) : ℚ) ∨
        |s.y + gev.dy_unaccelerated| >
          ((double_to_int (cfg.swipe_threshold * H.SWIPE_Y_THRESHOLD * (s.step : ℚ)) : Int) : ℚ))) ∧
    ((handle_swipe_event_with_coords H cfg s gev).2 ≠ [] →
      (handle_swipe_event_with_coords H cfg s gev).2 =
          [Effect.swipe
            (get_swipe_type (s.x + gev.dx_unaccelerated) (s.y + gev.dy_unaccelerated))
            s.fingers] ∧
        (handle_swipe_event_with_coords H cfg s gev).1.executed = true) ∧
    ((handle_swipe_event_with_coords H cfg s gev).2 = [] →
      (handle_swipe_event_with_coords H cfg s gev).1 =
        { s with x := s.x + gev.dx_unaccelerated, y := s.y + gev.dy_unaccelerated }) := by
  have hsw : ¬ ((cfg.swipe_one_shot && s.executed) = true) := by
    simpa [Bool.and_eq_true] using hns
  refine ⟨?_, ?_, ?_⟩
  · rw [handle_swipe_event_with_coords_unfold, if_neg hsw]
    by_cases h2 : |s.x + gev.dx_unaccelerated| >
            ((double_to_int (cfg.swipe_threshold * H.SWIPE_X_THRESHOLD * (s.step : ℚ)) : Int) : ℚ) ∨
          |s.y + gev.dy_unaccelerated| >
            ((double_to_int (cfg.swipe_threshold * H.SWIPE_Y_THRESHOLD * (s.step : ℚ)) : Int) : ℚ)
    · rw [if_pos h2]
      exact ⟨fun _ => h2, fun _ => List.cons_ne_nil _ _⟩
    · rw [if_neg h2]
      exact ⟨fun hne => absurd rfl hne, fun hc => absurd hc h2⟩
  · intro hne
    rw [swipe_update_fires H cfg s gev hne]
    exact ⟨rfl, rfl⟩
  · rw [handle_swipe_event_with_coords_unfold, if_neg hsw]
    by_cases h2 : |s.x + gev.dx_unaccelerated| >
            ((double_to_int (cfg.swipe_threshold * H.SWIPE_X_THRESHOLD * (s.step : ℚ)) : Int) : ℚ) ∨
          |s.y + gev.dy_unaccelerated| >
            ((double_to_int (cfg.swipe_threshold * H.SWIPE_Y_THRESHOLD * (s.step : ℚ)) : Int) : ℚ)
    · rw [if_pos h2]
      intro hnil
      exact absurd hnil (List.cons_ne_nil _ _)
    · rw [if_neg h2]
      intro _
      rfl

/-- Witness for C4 (amended) on the default threshold 0.5: the state
`swipe_in_progress` is not swallowed. -/
theorem swipe_update_trigger_iff_witness :
    ¬ (settings_one_shot.swipe_one_shot = true ∧ swipe_in_progress.executed = true) ∧
    ((handle_swipe_event_with_coords input_h settings_one_shot swipe_in_progress
        (swipe_update_by 600 0)).2 = [] →
      (handle_swipe_event_with_coords input_h settings_one_shot swipe_in_progress
        (swipe_update_by 600 0)).1 =
        { swipe_in_progress with
          x := swipe_in_progress.x + (swipe_update_by 600 0).dx_unaccelerated
          y := swipe_in_progress.y + (swipe_update_by 600 0).dy_unaccelerated }) :=
  ⟨by simp [swipe_in_progress],
    (swipe_update_trigger_iff input_h settings_one_shot swipe_in_progress
      (swipe_update_by 600 0) (by simp [swipe_in_progress])).2.2⟩


/-- C5: under the one-shot policy a fired gesture swallows every further
update (no effect, state unchanged). Hence a gesture begun with finger count
`n` (3 in the specification) performs, over
any run of updates in which `g` is the first one to cross the threshold,
exactly one trigger, on that update, with finger count `n`, and the
gesture-end performs none. -/
theorem swipe_one_shot_fires_once (H : InputH) (cfg : settings)
    (hone : cfg.swipe_one_shot = true) :
    (∀ (s : gesture_swipe_event) (gev : libinput_event_gesture), s.executed = true →
      handle_swipe_event_with_coords H cfg s gev = (s, [])) ∧
    (∀ (s0 : gesture_swipe_event) (gbegin g gend : libinput_event_gesture)
        (pre post : List libinput_event_gesture),
      (swipe_updates H cfg (handle_swipe_event_without_coords H cfg s0 gbegin true).1 pre).2 = [] →
      (handle_swipe_event_with_coords H cfg
        (swipe_updates H cfg (handle_swipe_event_without_coords H cfg s0 gbegin true).1 pre).1
        g).2 ≠ [] →
      (handle_swipe_event_without_coords H cfg s0 gbegin true).2 = [] ∧
      (swipe_updates H cfg (handle_swipe_event_without_coords H cfg s0 gbegin true).1
        (pre ++ g :: post)).2 =
        [Effect.swipe
          (get_swipe_type
            ((swipe_updates H cfg (handle_swipe_event_without_coords H cfg s0 gbegin true).1
              pre).1.x + g.dx_unaccelerated)
            ((swipe_updates H cfg (handle_swipe_event_without_coords H cfg s0 gbegin true).1
              pre).1.y + g.dy_unaccelerated))
          gbegin.finger_count] ∧
      (handle_swipe_event_without_coords H cfg
        (swipe_updates H cfg (handle_swipe_event_without_coords H cfg s0 gbegin true).1
          (pre ++ g :: post)).1 gend false).2 = []) := by
  refine ⟨fun s gev hex => swipe_update_swallowed H cfg s gev hone hex, ?_⟩
  intro s0 gbegin g gend pre post hpre hg
  have hb : (handle_swipe_event_without_coords H cfg s0 gbegin true).1.fingers =
      gbegin.finger_count := rfl
  obtain ⟨hf, _⟩ := swipe_updates_silent H cfg _ pre hpre
  have hfire := swipe_update_fires H cfg _ g hg
  have hrun : swipe_updates H cfg
      (swipe_updates H cfg (handle_swipe_event_without_coords H cfg s0 gbegin true).1 pre).1
      (g :: post) =
      ({ H.swipe_init with executed := true, step := H.inc_step H.swipe_init.step },
        [Effect.swipe
          (get_swipe_type
            ((swipe_updates H cfg (handle_swipe_event_without_coords H cfg s0 gbegin true).1
              pre).1.x + g.dx_unaccelerated)
            ((swipe_updates H cfg (handle_swipe_event_without_coords H cfg s0 gbegin true).1
              pre).1.y + g.dy_unaccelerated))
          gbegin.finger_count]) := by
    simp only [swipe_updates]
    rw [hfire, swipe_updates_swallowed H cfg _ post hone rfl, hf, hb]
    rfl
  refine ⟨rfl, ?_, ?_⟩
  · rw [swipe_updates_append, hpre, hrun]
    rfl
  · rw [swipe_updates_append, hrun]
    simp [handle_swipe_event_without_coords]

/-- Witness for C5: the default settings (threshold 0.5, one-shot), a gesture
begun with 3 fingers on the state left by the constructor of `input_h` at
step 1, one update below the threshold 500, one update crossing it, two more
updates and the gesture end. -/
theorem swipe_one_shot_fires_once_witness :
    settings_one_shot.swipe_one_shot = true ∧
    (swipe_updates input_h settings_one_shot
      (handle_swipe_event_without_coords input_h settings_one_shot
        { swipe_in_progress with fingers := 0 } (gesture_with 3 1) true).1
      ([swipe_update_by 300 0] ++ swipe_update_by 300 0 ::
        [swipe_update_by 300 0, swipe_update_by 900 0])).2 =
      [Effect.swipe
        (get_swipe_type
          ((swipe_updates input_h settings_one_shot
            (handle_swipe_event_without_coords input_h settings_one_shot
              { swipe_in_progress with fingers := 0 } (gesture_with 3 1) true).1
            [swipe_update_by 300 0]).1.x + (swipe_update_by 300 0).dx_unaccelerated)
          ((swipe_updates input_h settings_one_shot
            (handle_swipe_event_without_coords input_h settings_one_shot
              { swipe_in_progress with fingers := 0 } (gesture_with 3 1) true).1
            [swipe_update_by 300 0]).1.y + (swipe_update_by 300 0).dy_unaccelerated))
        (gesture_with 3 1).finger_count] := by
  have h500 : double_to_int 500 = 500 := by norm_num [double_to_int]
  have h250 : double_to_int 250 = 250 := by norm_num [double_to_int]
  refine ⟨rfl, ((swipe_one_shot_fires_once input_h settings_one_shot rfl).2
    { swipe_in_progress with fingers := 0 } (gesture_with 3 1) (swipe_update_by 300 0)
    (gesture_with 3 1) [swipe_update_by 300 0] [swipe_update_by 300 0, swipe_update_by 900 0]
    ?_ ?_).2.1⟩
  · norm_num [swipe_updates, handle_swipe_event_with_coords_unfold,
      handle_swipe_event_without_coords, settings_one_shot, swipe_in_progress, gesture_with,
      swipe_update_by, input_h, h500, h250]
  · norm_num [swipe_updates, handle_swipe_event_with_coords_unfold,
      handle_swipe_event_without_coords, settings_one_shot, swipe_in_progress, gesture_with,
      swipe_update_by, input_h, h500, h250]


/-- C6: under any policy, when two successive updates both fire, the first
trigger carries the finger count of the state, and the second carries the
finger count left by `gesture_swipe_event = {}` in `trigger_swipe_command`,
classified from the deltas of the second update alone; the finger count
recorded at begin is lost after the first trigger. -/
theorem swipe_second_trigger_fingers (H : InputH) (cfg : settings) (s : gesture_swipe_event)
    (g1 g2 : libinput_event_gesture)
    (h1 : (handle_swipe_event_with_coords H cfg s g1).2 ≠ [])
    (h2 : (handle_swipe_event_with_coords H cfg
      (handle_swipe_event_with_coords H cfg s g1).1 g2).2 ≠ []) :
    (swipe_updates H cfg s [g1, g2]).2 =
      [Effect.swipe (get_swipe_type (s.x + g1.dx_unaccelerated) (s.y + g1.dy_unaccelerated))
          s.fingers,
        Effect.swipe
          (get_swipe_type (H.swipe_init.x + g2.dx_unaccelerated)
            (H.swipe_init.y + g2.dy_unaccelerated))
          H.swipe_init.fingers] := by
  have e2 := swipe_update_fires H cfg _ g2 h2
  have e1 := swipe_update_fires H cfg s g1 h1
  rw [e1] at e2
  simp only [swipe_updates, e1, e2]
  rfl

/-- Evaluation for C6: continuous policy, threshold 0.5, a gesture begun with
3 fingers on the state left by the constructor of `input_h`, then two updates
to the right by 600 and by 1200. Both fire; the triggers are (6, 3) and (6, 0). -/
theorem swipe_second_trigger_fingers_witness :
    (swipe_updates input_h settings_continuous
      (handle_swipe_event_without_coords input_h settings_continuous
        (Input.Input input_h).gesture_swipe_event (gesture_with 3 1) true).1
      [swipe_update_by 600 0, swipe_update_by 1200 0]).2 =
      [Effect.swipe 6 3, Effect.swipe 6 0] := by
  have h0 : double_to_int 0 = 0 := by norm_num [double_to_int]
  have h500 : double_to_int 500 = 500 := by norm_num [double_to_int]
  have h250 : double_to_int 250 = 250 := by norm_num [double_to_int]
  refine (swipe_second_trigger_fingers input_h settings_continuous _ _ _ ?_ ?_).trans ?_
  · norm_num [handle_swipe_event_with_coords_unfold, handle_swipe_event_without_coords,
      settings_continuous, settings_one_shot, Input.Input, gesture_with, swipe_update_by,
      input_h, h0]
  · norm_num [handle_swipe_event_with_coords_unfold, handle_swipe_event_without_coords,
      settings_continuous, settings_one_shot, Input.Input, gesture_with, swipe_update_by,
      input_h, h0, h500, h250]
  · norm_num [handle_swipe_event_without_coords, Input.Input, gesture_with, swipe_update_by,
      input_h, get_swipe_type, OBLIQUE_RATIO]

/-- C7: at the gesture end, when nothing has fired and
`swipe_trigger_on_release` is set, exactly one trigger is performed, classified
from the accumulated vector as it stands, with the finger count of the state;
when the gesture has fired or the setting is off, nothing is performed; in
every case the state afterwards is the one `reset_swipe_event` builds. -/
theorem swipe_end_trigger_on_release (H : InputH) (cfg : settings) (s : gesture_swipe_event)
    (gev : libinput_event_gesture) :
    (s.executed = false ∧ cfg.swipe_trigger_on_release = true →
      (handle_swipe_event_without_coords H cfg s gev false).2 =
        [Effect.swipe (get_swipe_type s.x s.y) s.fingers]) ∧
    (s.executed = true ∨ cfg.swipe_trigger_on_release = false →
      (handle_swipe_event_without_coords H cfg s gev false).2 = []) ∧
    (handle_swipe_event_without_coords H cfg s gev false).1 = reset_swipe_event H ∧
    (handle_swipe_event_without_coords H cfg s gev false).1 =
      { H.swipe_init with executed := false } := by
  refine ⟨?_, ?_, rfl, rfl⟩
  · rintro ⟨h1, h2⟩
    simp [handle_swipe_event_without_coords, h1, h2, trigger_swipe_command, apply_swipe]
  · rintro (h1 | h2)
    · simp [handle_swipe_event_without_coords, h1]
    · simp [handle_swipe_event_without_coords, h2]

/-- C8, counterexample: swipe begin with finger count 3 on a state that has
accumulated (5, 7), has fired and is at step 4 leaves all three as they were. -/
theorem swipe_begin_keeps_other_fields :
    (handle_swipe_event_without_coords input_h settings_one_shot swipe_used
        (gesture_with 3 1) true).1 =
      { fingers := 3, x := 5, y := 7, executed := true, step := 4 } ∧
    ((handle_swipe_event_without_coords input_h settings_one_shot swipe_used
        (gesture_with 3 1) true).1.x,
      (handle_swipe_event_without_coords input_h settings_one_shot swipe_used
        (gesture_with 3 1) true).1.y) ≠ (0, 0) ∧
    (handle_swipe_event_without_coords input_h settings_one_shot swipe_used
        (gesture_with 3 1) true).1.executed ≠ false ∧
    (handle_swipe_event_without_coords input_h settings_one_shot swipe_used
        (gesture_with 3 1) true).1.step ≠ 1 := by
  refine ⟨rfl, ?_, ?_, ?_⟩
  · norm_num [handle_swipe_event_without_coords, swipe_used]
  · simp [handle_swipe_event_without_coords, swipe_used]
  · simp [handle_swipe_event_without_coords, swipe_used]

/-- C8, amended: swipe begin sets the finger count to the one carried by the
event, leaves the accumulated displacement, the fired flag and the step as
they were, and performs nothing. -/
theorem swipe_begin_sets_fingers_only (H : InputH) (cfg : settings) (s : gesture_swipe_event)
    (gev : libinput_event_gesture) :
    handle_swipe_event_without_coords H cfg s gev true =
      ({ s with fingers := gev.finger_count }, []) := by
  simp [handle_swipe_event_without_coords]

/-! ## Reset to the constructed state -/

/-- The function `check_multitouch_down_up` changes neither vector. -/
theorem check_multitouch_down_up_slots (H : InputH) (t : touch_swipe_event)
    (slots : List (Int × ℚ)) :
    (check_multitouch_down_up H t slots).up_slots = t.up_slots ∧
    (check_multitouch_down_up H t slots).down_slots = t.down_slots := by
  unfold check_multitouch_down_up
  split
  · split
    · dsimp only
      split <;> exact ⟨rfl, rfl⟩
    · exact ⟨rfl, rfl⟩
  · exact ⟨rfl, rfl⟩

/-- C9: when `= {}` leaves the fired flag of `gesture_swipe_event` false (as
it does for a member without a default member initialiser), the swipe state
after a gesture end is, for every swipe state, the swipe state set up by the
constructor; and for every touch state, the touch state after an up-event
that makes the number of up-events equal to the number of down-events is the
touch state set up by the constructor, whatever was performed. -/
theorem reset_is_constructed_state (H : InputH) :
    (H.swipe_init.executed = false →
      ∀ (cfg : settings) (s : gesture_swipe_event) (gev : libinput_event_gesture),
        (handle_swipe_event_without_coords H cfg s gev false).1 =
          (Input.Input H).gesture_swipe_event) ∧
    (∀ (t : touch_swipe_event) (tev : libinput_event_touch),
      (t.up_slots ++ [(tev.slot, tev.time)]).length = t.down_slots.length →
      (handle_touch_event_up H t tev).1 = (Input.Input H).touch_swipe_event) := by
  constructor
  · intro hinit cfg s gev
    show reset_swipe_event H = H.swipe_init
    unfold reset_swipe_event
    rw [← hinit]
  · intro t tev hbal
    have hs := check_multitouch_down_up_slots H
      { t with up_slots := t.up_slots ++ [(tev.slot, tev.time)] }
      (t.up_slots ++ [(tev.slot, tev.time)])
    unfold handle_touch_event_up
    simp only [hs.1, hs.2, hbal, if_true]
    rfl

/-- Witness for C9 on the header `input_h`: a swipe end on a used state, and
the up-event that balances one down-event of a touch session. -/
theorem reset_is_constructed_state_witness :
    input_h.swipe_init.executed = false ∧
    (handle_swipe_event_without_coords input_h settings_one_shot swipe_used
      (gesture_with 3 1) false).1 = (Input.Input input_h).gesture_swipe_event ∧
    (handle_touch_event_up input_h touch_one_down touch_up_at_50).1 =
      (Input.Input input_h).touch_swipe_event :=
  ⟨rfl, (reset_is_constructed_state input_h).1 rfl settings_one_shot swipe_used
      (gesture_with 3 1),
    (reset_is_constructed_state input_h).2 touch_one_down touch_up_at_50 rfl⟩

/-! ## The pinch tracker: begin and end -/

/-- C10, counterexample: on the state left by the constructor, with one-shot
pinches of threshold 0.25, a pinch-end event carrying scale 2 runs the
pinch-in command and leaves the tracked scale at 2 with the fired flag set,
which is not the constructed pinch state. -/
theorem pinch_end_is_not_a_reset :
    (handle_event input_h settings_one_shot (Input.Input input_h)
        (libinput_event.GESTURE_PINCH_END (gesture_with 2 2))).2 =
      [Effect.pinch_command pinch.PINCH_IN] ∧
    (handle_event input_h settings_one_shot (Input.Input input_h)
        (libinput_event.GESTURE_PINCH_END (gesture_with 2 2))).1.gesture_pinch_event =
      { fingers := 0, scale := 2, executed := true, step := 0 } ∧
    (handle_event input_h settings_one_shot (Input.Input input_h)
        (libinput_event.GESTURE_PINCH_END (gesture_with 2 2))).1.gesture_pinch_event ≠
      (Input.Input input_h).gesture_pinch_event := by
  refine ⟨?_, ?_, ?_⟩
  · norm_num [handle_event, handle_pinch_event, handle_one_shot_pinch, settings_one_shot,
      Input.Input, input_h, gesture_with]
  · norm_num [handle_event, handle_pinch_event, handle_one_shot_pinch, settings_one_shot,
      Input.Input, input_h, gesture_with]
  · norm_num [handle_event, handle_pinch_event, handle_one_shot_pinch, settings_one_shot,
      Input.Input, input_h, gesture_with]

/-- C10, amended: `handle_event` treats a pinch-end event exactly as a pinch
update; afterwards the tracked scale is the scale carried by the event. The
reset is done by pinch begin: for every state it performs nothing and leaves
the pinch state of `reset_pinch_event` (scale `DEFAULT_SCALE`, fired flag
false, the other members as `= {}` leaves them) with the finger count of the
event. -/
theorem pinch_end_is_update_and_begin_resets (H : InputH) (cfg : settings) (i : Input)
    (gev : libinput_event_gesture) :
    handle_event H cfg i (libinput_event.GESTURE_PINCH_END gev) =
      handle_event H cfg i (libinput_event.GESTURE_PINCH_UPDATE gev) ∧
    (handle_event H cfg i (libinput_event.GESTURE_PINCH_END gev)).1.gesture_pinch_event.scale =
      gev.scale ∧
    (handle_event H cfg i (libinput_event.GESTURE_PINCH_BEGIN gev)).2 = [] ∧
    (handle_event H cfg i (libinput_event.GESTURE_PINCH_BEGIN gev)).1.gesture_pinch_event =
      { fingers := gev.finger_count, scale := H.DEFAULT_SCALE, executed := false,
        step := H.pinch_init.step } := by
  refine ⟨rfl, rfl, rfl, rfl⟩


/-! ## The pinch tracker: one-shot policy -/

/-- A run of pinch updates over a non-empty sequence is the first update
followed by the run over the rest. -/
theorem pinch_updates_cons (H : InputH) (cfg : settings) (p : gesture_pinch_event)
    (g : libinput_event_gesture) (rest : List libinput_event_gesture) :
    pinch_updates H cfg p (g :: rest) =
      ((pinch_updates H cfg (handle_pinch_event H cfg p g false).1 rest).1,
        (handle_pinch_event H cfg p g false).2 ++
          (pinch_updates H cfg (handle_pinch_event H cfg p g false).1 rest).2) :=
  rfl

/-- A run of pinch updates over a concatenation is the run over the first part
followed by the run over the second part. -/
theorem pinch_updates_append (H : InputH) (cfg : settings) (p : gesture_pinch_event)
    (as bs : List libinput_event_gesture) :
    pinch_updates H cfg p (as ++ bs) =
      ((pinch_updates H cfg (pinch_updates H cfg p as).1 bs).1,
        (pinch_updates H cfg p as).2 ++ (pinch_updates H cfg (pinch_updates H cfg p as).1 bs).2) := by
  induction as generalizing p with
  | nil => simp [pinch_updates]
  | cons a rest ih =>
    show pinch_updates H cfg p (a :: (rest ++ bs)) = _
    simp only [pinch_updates, ih, List.append_assoc]

/-- Under the one-shot policy an update on a fired gesture only stores the new
scale. -/
theorem pinch_update_one_shot_fired (H : InputH) (cfg : settings) (p : gesture_pinch_event)
    (gev : libinput_event_gesture) (hone : cfg.pinch_one_shot = true)
    (hex : p.executed = true) :
    handle_pinch_event H cfg p gev false = ({ p with scale := gev.scale }, []) := by
  simp [handle_pinch_event, hone, hex]

/-- Under the one-shot policy an update on a gesture that has not fired is
`handle_one_shot_pinch` followed by the assignment of the new scale. -/
theorem pinch_update_one_shot_open (H : InputH) (cfg : settings) (p : gesture_pinch_event)
    (gev : libinput_event_gesture) (hone : cfg.pinch_one_shot = true)
    (hex : p.executed = false) :
    handle_pinch_event H cfg p gev false =
      ({ (handle_one_shot_pinch cfg p gev.scale).1 with scale := gev.scale },
        (handle_one_shot_pinch cfg p gev.scale).2) := by
  simp [handle_pinch_event, hone, hex]

/-- Under the one-shot policy a run of updates on a fired gesture performs
nothing. -/
theorem pinch_updates_one_shot_fired (H : InputH) (cfg : settings) (p : gesture_pinch_event)
    (gevs : List libinput_event_gesture) (hone : cfg.pinch_one_shot = true)
    (hex : p.executed = true) :
    (pinch_updates H cfg p gevs).2 = [] := by
  induction gevs generalizing p with
  | nil => rfl
  | cons g rest ih =>
    simp only [pinch_updates, pinch_update_one_shot_fired H cfg p g hone hex, List.nil_append]
    exact ih _ hex

/-- Under the one-shot policy with a non-negative threshold, an update whose
scale lies in [1, 1 + threshold], on a gesture that has not fired and whose
tracked scale is at least 1, performs nothing. -/
theorem pinch_update_one_shot_quiet (H : InputH) (cfg : settings) (p : gesture_pinch_event)
    (gev : libinput_event_gesture) (hone : cfg.pinch_one_shot = true)
    (ht : 0 ≤ cfg.pinch_threshold) (hex : p.executed = false) (hp : 1 ≤ p.scale)
    (hhi : gev.scale ≤ 1 + cfg.pinch_threshold) :
    handle_pinch_event H cfg p gev false = ({ p with scale := gev.scale }, []) := by
  rw [pinch_update_one_shot_open H cfg p gev hone hex]
  unfold handle_one_shot_pinch
  have h1 : ¬ (gev.scale > 1 + cfg.pinch_threshold) := not_lt.mpr hhi
  have h2 : ¬ (p.scale < 1 - cfg.pinch_threshold) := by
    intro h
    linarith
  by_cases hc : gev.scale > p.scale
  · rw [if_pos hc, if_neg h1]
  · rw [if_neg hc, if_neg h2]

/-- Under the one-shot policy with a non-negative threshold, a run of updates
whose scales all lie in [1, 1 + threshold], on a gesture that has not fired and
whose tracked scale lies in that interval, performs nothing and ends in such a
state. -/
theorem pinch_updates_one_shot_quiet (H : InputH) (cfg : settings) (p : gesture_pinch_event)
    (gevs : List libinput_event_gesture) (hone : cfg.pinch_one_shot = true)
    (ht : 0 ≤ cfg.pinch_threshold) (hex : p.executed = false) (hp : 1 ≤ p.scale)
    (hp' : p.scale ≤ 1 + cfg.pinch_threshold)
    (hall : ∀ e ∈ gevs, 1 ≤ e.scale ∧ e.scale ≤ 1 + cfg.pinch_threshold) :
    (pinch_updates H cfg p gevs).2 = [] ∧
    (pinch_updates H cfg p gevs).1.executed = false ∧
    1 ≤ (pinch_updates H cfg p gevs).1.scale ∧
    (pinch_updates H cfg p gevs).1.scale ≤ 1 + cfg.pinch_threshold := by
  induction gevs generalizing p with
  | nil => exact ⟨rfl, hex, hp, hp'⟩
  | cons g rest ih =>
    have hg := hall g (List.mem_cons_self _ _)
    have hrest : ∀ e ∈ rest, 1 ≤ e.scale ∧ e.scale ≤ 1 + cfg.pinch_threshold :=
      fun e he => hall e (List.mem_cons_of_mem _ he)
    simp only [pinch_updates, pinch_update_one_shot_quiet H cfg p g hone ht hex hp hg.2,
      List.nil_append]
    exact ih { p with scale := g.scale } hex hg.1 hg.2 hrest

/-- C11: one-shot policy with a non-negative threshold. After pinch begin, let
the updates `first :: pre ++ [g]` be non-decreasing in scale, `first` carrying
scale 1.0, no update of `pre` exceeding 1 + pinch_threshold and `g` exceeding
it. Then nothing is performed before `g`, the update `g` runs the pinch-in
command, and whatever updates `post` follow, the whole gesture performs that
one command only. -/
theorem pinch_one_shot_growing (H : InputH) (cfg : settings)
    (hone : cfg.pinch_one_shot = true) (ht : 0 ≤ cfg.pinch_threshold)
    (p0 : gesture_pinch_event) (gbegin first g : libinput_event_gesture)
    (pre post : List libinput_event_gesture)
    (hfirst : first.scale = 1)
    (hmono : List.Sorted (· ≤ ·) (List.map (fun e => e.scale) (first :: pre ++ [g])))
    (hpre : ∀ e ∈ pre, e.scale ≤ 1 + cfg.pinch_threshold)
    (hg : 1 + cfg.pinch_threshold < g.scale) :
    (pinch_updates H cfg (handle_pinch_event H cfg p0 gbegin true).1 (first :: pre)).2 = [] ∧
    (handle_pinch_event H cfg
      (pinch_updates H cfg (handle_pinch_event H cfg p0 gbegin true).1 (first :: pre)).1
      g false).2 = [Effect.pinch_command pinch.PINCH_IN] ∧
    (pinch_updates H cfg (handle_pinch_event H cfg p0 gbegin true).1
      (first :: pre ++ g :: post)).2 = [Effect.pinch_command pinch.PINCH_IN] := by
  have hb : (handle_pinch_event H cfg p0 gbegin true).1.executed = false := rfl
  -- the first update, at scale 1.0
  have hstep1 : handle_pinch_event H cfg (handle_pinch_event H cfg p0 gbegin true).1 first false =
      ({ (handle_pinch_event H cfg p0 gbegin true).1 with scale := first.scale }, []) := by
    rw [pinch_update_one_shot_open H cfg _ first hone hb]
    unfold handle_one_shot_pinch
    rw [hfirst]
    by_cases hc : (1 : ℚ) > (handle_pinch_event H cfg p0 gbegin true).1.scale
    · have h1 : ¬ ((1 : ℚ) > 1 + cfg.pinch_threshold) := by
        intro h
        linarith
      rw [if_pos hc, if_neg h1]
    · have h2 : ¬ ((handle_pinch_event H cfg p0 gbegin true).1.scale < 1 - cfg.pinch_threshold) := by
        intro h
        have := not_lt.mp hc
        linarith
      rw [if_neg hc, if_neg h2]
  -- every update of pre lies in [1, 1 + threshold]
  have hsorted := hmono
  simp only [List.map_cons, List.map_append, List.cons_append, List.sorted_cons] at hsorted
  have hge : ∀ e ∈ pre, 1 ≤ e.scale := by
    intro e he
    have := hsorted.1 e.scale (List.mem_append_left _ (List.mem_map_of_mem _ he))
    rwa [hfirst] at this
  have hq := pinch_updates_one_shot_quiet H cfg
    { (handle_pinch_event H cfg p0 gbegin true).1 with scale := first.scale } pre hone ht rfl
    (by show (1 : ℚ) ≤ first.scale; rw [hfirst])
    (by show first.scale ≤ 1 + cfg.pinch_threshold; rw [hfirst]; linarith)
    (fun e he => ⟨hge e he, hpre e he⟩)
  have hrun : pinch_updates H cfg (handle_pinch_event H cfg p0 gbegin true).1 (first :: pre) =
      pinch_updates H cfg
        { (handle_pinch_event H cfg p0 gbegin true).1 with scale := first.scale } pre := by
    simp only [pinch_updates, hstep1, List.nil_append]
  rw [← hrun] at hq
  obtain ⟨hq1, hq2, _, hq4⟩ := hq
  -- the update g
  have hgfire : handle_pinch_event H cfg
      (pinch_updates H cfg (handle_pinch_event H cfg p0 gbegin true).1 (first :: pre)).1
      g false =
      ({ (pinch_updates H cfg (handle_pinch_event H cfg p0 gbegin true).1 (first :: pre)).1 with
          executed := true, scale := g.scale },
        [Effect.pinch_command pinch.PINCH_IN]) := by
    rw [pinch_update_one_shot_open H cfg _ g hone hq2]
    unfold handle_one_shot_pinch
    have hc : g.scale >
        (pinch_updates H cfg (handle_pinch_event H cfg p0 gbegin true).1 (first :: pre)).1.scale :=
      lt_of_le_of_lt hq4 hg
    rw [if_pos hc, if_pos hg]
  refine ⟨hq1, by rw [hgfire], ?_⟩
  have happ : first :: pre ++ g :: post = (first :: pre) ++ (g :: post) := rfl
  rw [happ, pinch_updates_append, hq1, pinch_updates_cons, hgfire,
    pinch_updates_one_shot_fired H cfg _ post hone rfl]
  rfl


/-- Witness for C11 with threshold 0.25 on the header `input_h`: the updates
[1.0, 1.3] run pinch-in once; of the updates [1.0, 1.1, 1.3] the first two
perform nothing and the whole run performs pinch-in once. -/
theorem pinch_one_shot_growing_witness :
    (pinch_updates input_h settings_one_shot
      (handle_pinch_event input_h settings_one_shot (Input.Input input_h).gesture_pinch_event
        (gesture_with 2 1) true).1
      (gesture_with 2 1 :: [] ++ gesture_with 2 (13 / 10) :: [])).2 =
      [Effect.pinch_command pinch.PINCH_IN] ∧
    (pinch_updates input_h settings_one_shot
      (handle_pinch_event input_h settings_one_shot (Input.Input input_h).gesture_pinch_event
        (gesture_with 2 1) true).1
      (gesture_with 2 1 :: [gesture_with 2 (11 / 10)])).2 = [] ∧
    (pinch_updates input_h settings_one_shot
      (handle_pinch_event input_h settings_one_shot (Input.Input input_h).gesture_pinch_event
        (gesture_with 2 1) true).1
      (gesture_with 2 1 :: [gesture_with 2 (11 / 10)] ++ gesture_with 2 (13 / 10) :: [])).2 =
      [Effect.pinch_command pinch.PINCH_IN] := by
  have ht : (0 : ℚ) ≤ settings_one_shot.pinch_threshold := by norm_num [settings_one_shot]
  have hg : 1 + settings_one_shot.pinch_threshold < (gesture_with 2 (13 / 10)).scale := by
    norm_num [settings_one_shot, gesture_with]
  have h2 := pinch_one_shot_growing input_h settings_one_shot rfl ht
    (Input.Input input_h).gesture_pinch_event (gesture_with 2 1) (gesture_with 2 1)
    (gesture_with 2 (13 / 10)) [] [] rfl
    (by norm_num [List.Sorted, gesture_with]) (by simp) hg
  have h3 := pinch_one_shot_growing input_h settings_one_shot rfl ht
    (Input.Input input_h).gesture_pinch_event (gesture_with 2 1) (gesture_with 2 1)
    (gesture_with 2 (13 / 10)) [gesture_with 2 (11 / 10)] [] rfl
    (by norm_num [List.Sorted, gesture_with])
    (by norm_num [settings_one_shot, gesture_with]) hg
  exact ⟨h2.2.2, h3.1, h3.2.2⟩

/-- C12, counterexample: one-shot policy, threshold 0.25, on the header
`input_h`. After pinch begin the updates [1.0, 0.7] perform nothing: when 0.7
is processed the scale-down branch tests the tracked scale 1.0, not the new
scale, against 0.75. The pinch-out command runs on the next event that does
not grow, here a third event at 0.7. -/
theorem pinch_one_shot_shrinking_fires_late :
    (pinch_updates input_h settings_one_shot
      (handle_pinch_event input_h settings_one_shot (Input.Input input_h).gesture_pinch_event
        (gesture_with 2 1) true).1
      [gesture_with 2 1, gesture_with 2 (7 / 10)]).2 = [] ∧
    (pinch_updates input_h settings_one_shot
      (handle_pinch_event input_h settings_one_shot (Input.Input input_h).gesture_pinch_event
        (gesture_with 2 1) true).1
      [gesture_with 2 1, gesture_with 2 (7 / 10), gesture_with 2 (7 / 10)]).2 =
      [Effect.pinch_command pinch.PINCH_OUT] := by
  constructor
  · norm_num [pinch_updates, handle_pinch_event, handle_one_shot_pinch, reset_pinch_event,
      settings_one_shot, Input.Input, input_h, gesture_with]
  · norm_num [pinch_updates, handle_pinch_event, handle_one_shot_pinch, reset_pinch_event,
      settings_one_shot, Input.Input, input_h, gesture_with]

/-- Under the one-shot policy an update performs at most one command, and one
that performs a command leaves the fired flag set. -/
theorem pinch_update_one_shot_le_one (H : InputH) (cfg : settings) (p : gesture_pinch_event)
    (gev : libinput_event_gesture) (hone : cfg.pinch_one_shot = true) :
    (handle_pinch_event H cfg p gev false).2.length ≤ 1 ∧
    ((handle_pinch_event H cfg p gev false).2 ≠ [] →
      (handle_pinch_event H cfg p gev false).1.executed = true) := by
  cases hex : p.executed with
  | true =>
    rw [pinch_update_one_shot_fired H cfg p gev hone hex]
    exact ⟨Nat.zero_le _, fun h => absurd rfl h⟩
  | false =>
    rw [pinch_update_one_shot_open H cfg p gev hone hex]
    unfold handle_one_shot_pinch
    by_cases hc : gev.scale > p.scale
    · rw [if_pos hc]
      by_cases h1 : gev.scale > 1 + cfg.pinch_threshold
      · rw [if_pos h1]
        exact ⟨le_refl _, fun _ => rfl⟩
      · rw [if_neg h1]
        exact ⟨Nat.zero_le _, fun h => absurd rfl h⟩
    · rw [if_neg hc]
      by_cases h2 : p.scale < 1 - cfg.pinch_threshold
      · rw [if_pos h2]
        exact ⟨le_refl _, fun _ => rfl⟩
      · rw [if_neg h2]
        exact ⟨Nat.zero_le _, fun h => absurd rfl h⟩

/-- C13: under the one-shot policy, every run of pinch updates, from any pinch
state (in particular from the state left by pinch begin), performs at most one
pinch command; and after every update, whether or not it fired, the tracked
scale is the scale carried by that update. -/
theorem pinch_one_shot_at_most_once (H : InputH) (cfg : settings)
    (hone : cfg.pinch_one_shot = true) :
    (∀ (p : gesture_pinch_event) (gevs : List libinput_event_gesture),
      (pinch_updates H cfg p gevs).2.length ≤ 1) ∧
    (∀ (p : gesture_pinch_event) (gev : libinput_event_gesture),
      (handle_pinch_event H cfg p gev false).1.scale = gev.scale) := by
  constructor
  · intro p gevs
    induction gevs generalizing p with
    | nil => exact Nat.zero_le _
    | cons g rest ih =>
      rw [pinch_updates_cons, List.length_append]
      obtain ⟨hle, hfired⟩ := pinch_update_one_shot_le_one H cfg p g hone
      by_cases hnil : (handle_pinch_event H cfg p g false).2 = []
      · rw [hnil]
        simpa using ih _
      · rw [pinch_updates_one_shot_fired H cfg _ rest hone (hfired hnil)]
        simpa using hle
  · intro p gev
    rfl

/-- Witness for C13 with threshold 0.25 on the header `input_h`: the updates
[1.0, 1.3, 1.6, 0.5, 0.4] after pinch begin perform at most one command (they
perform pinch-in, on 1.3). -/
theorem pinch_one_shot_at_most_once_witness :
    settings_one_shot.pinch_one_shot = true ∧
    (pinch_updates input_h settings_one_shot
      (handle_pinch_event input_h settings_one_shot (Input.Input input_h).gesture_pinch_event
        (gesture_with 2 1) true).1
      [gesture_with 2 1, gesture_with 2 (13 / 10), gesture_with 2 (16 / 10),
        gesture_with 2 (5 / 10), gesture_with 2 (4 / 10)]).2.length ≤ 1 :=
  ⟨rfl, (pinch_one_shot_at_most_once input_h settings_one_shot rfl).1 _ _⟩


/-! ## The pinch tracker: continuous policy -/

/-- The body of `handle_continouos_pinch` with the locals `step` and `trigger`
substituted. -/
theorem handle_continouos_pinch_unfold (H : InputH) (cfg : settings) (p : gesture_pinch_event)
    (new_scale : ℚ) :
    handle_continouos_pinch H cfg p new_scale =
      if new_scale > p.scale then
        if new_scale ≥ 1 + cfg.pinch_threshold * (((if p.step = 0 then p.step + 1 else p.step : Int)) : ℚ)
        then ({ p with step := H.inc_step p.step }, [Effect.pinch_command pinch.PINCH_IN])
        else (p, [])
      else
        if new_scale ≤ 1 + cfg.pinch_threshold * (((if p.step = 0 then p.step + 1 else p.step : Int)) : ℚ)
        then ({ p with step := H.dec_step p.step }, [Effect.pinch_command pinch.PINCH_OUT])
        else (p, []) :=
  rfl

/-- The step used for the trigger, `step == 0 ? step + 1 : step`, is
`max(step, 1)` when the step is not negative. -/
theorem trigger_step_eq_max (step : Int) (h : 0 ≤ step) :
    (if step = 0 then step + 1 else step) = max step 1 := by
  by_cases h0 : step = 0
  · rw [if_pos h0, h0]
    rfl
  · rw [if_neg h0]
    have : 1 ≤ step := by omega
    exact (max_eq_left this).symm

/-- C14, counterexample: continuous policy, threshold 0.25. In the state left
by pinch begin and one update at 0.7 (step -1, tracked scale 0.7) the growing
update 0.8 runs the pinch-in command, because the trigger is
1 + 0.25 * (-1) = 0.75; the boundary 1 + 0.25 * max(-1, 1) = 1.25 is not
reached. -/
theorem pinch_continuous_growing_negative_step :
    (pinch_updates input_h settings_pinch_continuous
      (handle_pinch_event input_h settings_pinch_continuous
        (Input.Input input_h).gesture_pinch_event (gesture_with 2 1) true).1
      [gesture_with 2 (7 / 10)]).1 = pinch_shrunk_once ∧
    (8 / 10 : ℚ) > pinch_shrunk_once.scale ∧
    (handle_continouos_pinch input_h settings_pinch_continuous pinch_shrunk_once (8 / 10)).2 =
      [Effect.pinch_command pinch.PINCH_IN] ∧
    ¬ ((8 / 10 : ℚ) ≥
      1 + settings_pinch_continuous.pinch_threshold * ((max pinch_shrunk_once.step 1 : Int) : ℚ)) := by
  refine ⟨?_, ?_, ?_, ?_⟩
  · norm_num [pinch_updates, handle_pinch_event, handle_continouos_pinch_unfold,
      reset_pinch_event, settings_pinch_continuous, settings_one_shot, Input.Input, input_h,
      gesture_with, pinch_shrunk_once]
  · norm_num [pinch_shrunk_once]
  · norm_num [handle_continouos_pinch_unfold, settings_pinch_continuous, settings_one_shot,
      input_h, pinch_shrunk_once]
  · norm_num [settings_pinch_continuous, settings_one_shot, pinch_shrunk_once]

/-- C14, amended: for every pinch state and every new scale greater than the
tracked scale, `handle_continouos_pinch` runs the pinch-in command (and
advances the step with `inc_step`, changing nothing else) exactly when the new
scale has reached 1 + pinch_threshold * s, where s is the step, or 1 when the
step is 0; when the step is not negative this boundary is
1 + pinch_threshold * max(step, 1). Otherwise it performs nothing and leaves
the state, the step included, unchanged. -/
theorem pinch_continuous_growing (H : InputH) (cfg : settings) (p : gesture_pinch_event)
    (new_scale : ℚ) (hgrow : new_scale > p.scale) :
    ((handle_continouos_pinch H cfg p new_scale).2 ≠ [] ↔
      new_scale ≥ 1 + cfg.pinch_threshold * (((if p.step = 0 then 1 else p.step : Int)) : ℚ)) ∧
    (0 ≤ p.step →
      ((handle_continouos_pinch H cfg p new_scale).2 ≠ [] ↔
        new_scale ≥ 1 + cfg.pinch_threshold * ((max p.step 1 : Int) : ℚ))) ∧
    ((handle_continouos_pinch H cfg p new_scale).2 ≠ [] →
      handle_continouos_pinch H cfg p new_scale =
        ({ p with step := H.inc_step p.step }, [Effect.pinch_command pinch.PINCH_IN])) ∧
    ((handle_continouos_pinch H cfg p new_scale).2 = [] →
      handle_continouos_pinch H cfg p new_scale = (p, [])) := by
  have hstep : (if p.step = 0 then p.step + 1 else p.step) = (if p.step = 0 then 1 else p.step) := by
    by_cases h0 : p.step = 0
    · rw [if_pos h0, if_pos h0, h0]
      rfl
    · rw [if_neg h0, if_neg h0]
  have hmain : (handle_continouos_pinch H cfg p new_scale).2 ≠ [] ↔
      new_scale ≥ 1 + cfg.pinch_threshold * (((if p.step = 0 then 1 else p.step : Int)) : ℚ) := by
    rw [handle_continouos_pinch_unfold, if_pos hgrow, hstep]
    by_cases hc : new_scale ≥
        1 + cfg.pinch_threshold * (((if p.step = 0 then 1 else p.step : Int)) : ℚ)
    · rw [if_pos hc]
      exact ⟨fun _ => hc, fun _ => List.cons_ne_nil _ _⟩
    · rw [if_neg hc]
      exact ⟨fun h => absurd rfl h, fun h => absurd h hc⟩
  refine ⟨hmain, ?_, ?_, ?_⟩
  · intro h0
    rw [hmain, ← hstep, trigger_step_eq_max p.step h0]
  · intro hne
    have hc := hmain.mp hne
    rw [← hstep] at hc
    rw [handle_continouos_pinch_unfold, if_pos hgrow, if_pos hc]
  · intro hnil
    have hc : ¬ (new_scale ≥
        1 + cfg.pinch_threshold * (((if p.step = 0 then p.step + 1 else p.step : Int)) : ℚ)) := by
      rw [hstep]
      intro h
      exact (hmain.mpr h) hnil
    rw [handle_continouos_pinch_unfold, if_pos hgrow, if_neg hc]

/-- Witness for C14 (amended): on the state left by pinch begin (step 0,
tracked scale 1.0) with threshold 0.25, the growing update 1.3 has reached
1.25 and runs pinch-in, advancing the step to 1. -/
theorem pinch_continuous_growing_witness :
    (13 / 10 : ℚ) > (handle_pinch_event input_h settings_pinch_continuous
      (Input.Input input_h).gesture_pinch_event (gesture_with 2 1) true).1.scale ∧
    handle_continouos_pinch input_h settings_pinch_continuous
      (handle_pinch_event input_h settings_pinch_continuous
        (Input.Input input_h).gesture_pinch_event (gesture_with 2 1) true).1 (13 / 10) =
      ({ fingers := 2, scale := 1, executed := false, step := 1 },
        [Effect.pinch_command pinch.PINCH_IN]) := by
  have hgrow : (13 / 10 : ℚ) > (handle_pinch_event input_h settings_pinch_continuous
      (Input.Input input_h).gesture_pinch_event (gesture_with 2 1) true).1.scale := by
    norm_num [handle_pinch_event, reset_pinch_event, input_h]
  have h := pinch_continuous_growing input_h settings_pinch_continuous
    (handle_pinch_event input_h settings_pinch_continuous
      (Input.Input input_h).gesture_pinch_event (gesture_with 2 1) true).1 (13 / 10) hgrow
  have hfire := h.1.mpr (by
    norm_num [handle_pinch_event, reset_pinch_event, input_h, settings_pinch_continuous,
      settings_one_shot])
  refine ⟨hgrow, (h.2.2.1 hfire).trans ?_⟩
  norm_num [handle_pinch_event, reset_pinch_event, input_h, gesture_with]

/-- C15: continuous policy, threshold 0.25, on the header `input_h`. Directly
after pinch begin an update at scale 1.0, and likewise one at 0.9, runs the
pinch-out command: the scale-down branch compares the new scale with the same
trigger 1 + 0.25 * 1 = 1.25 as the scale-up branch, and neither scale has
reached the shrinking-side boundary 1 - 0.25 * max(|0|, 1) = 0.75. -/
theorem pinch_continuous_shrinking_fires_at_once :
    (pinch_updates input_h settings_pinch_continuous
      (handle_pinch_event input_h settings_pinch_continuous
        (Input.Input input_h).gesture_pinch_event (gesture_with 2 1) true).1
      [gesture_with 2 1]).2 = [Effect.pinch_command pinch.PINCH_OUT] ∧
    (pinch_updates input_h settings_pinch_continuous
      (handle_pinch_event input_h settings_pinch_continuous
        (Input.Input input_h).gesture_pinch_event (gesture_with 2 1) true).1
      [gesture_with 2 (9 / 10)]).2 = [Effect.pinch_command pinch.PINCH_OUT] ∧
    ¬ ((1 : ℚ) ≤ 1 - settings_pinch_continuous.pinch_threshold *
      ((max |(handle_pinch_event input_h settings_pinch_continuous
        (Input.Input input_h).gesture_pinch_event (gesture_with 2 1) true).1.step| 1 : Int) : ℚ)) := by
  refine ⟨?_, ?_, ?_⟩
  · norm_num [pinch_updates, handle_pinch_event, handle_continouos_pinch_unfold,
      reset_pinch_event, settings_pinch_continuous, settings_one_shot, Input.Input, input_h,
      gesture_with]
  · norm_num [pinch_updates, handle_pinch_event, handle_continouos_pinch_unfold,
      reset_pinch_event, settings_pinch_continuous, settings_one_shot, Input.Input, input_h,
      gesture_with]
  · norm_num [handle_pinch_event, reset_pinch_event, settings_pinch_continuous,
      settings_one_shot, input_h]


/-! ## The touch contact synchronizer -/

/-- A run over a non-empty sequence is the first event followed by the run
over the rest. -/
theorem touch_run_cons (H : InputH) (t : touch_swipe_event) (ev : libinput_event)
    (rest : List libinput_event) :
    touch_run H t (ev :: rest) =
      ((touch_run H (handle_touch_event H t ev).1 rest).1,
        (handle_touch_event H t ev).2 ++ (touch_run H (handle_touch_event H t ev).1 rest).2) :=
  rfl

/-- A run over a concatenation is the run over the first part followed by the
run over the second part. -/
theorem touch_run_append (H : InputH) (t : touch_swipe_event) (as bs : List libinput_event) :
    touch_run H t (as ++ bs) =
      ((touch_run H (touch_run H t as).1 bs).1,
        (touch_run H t as).2 ++ (touch_run H (touch_run H t as).1 bs).2) := by
  induction as generalizing t with
  | nil => simp [touch_run]
  | cons a rest ih =>
    show touch_run H t (a :: (rest ++ bs)) = _
    simp only [touch_run_cons, ih, List.append_assoc]

/-- The function `check_multitouch_down_up` changes neither map. -/
theorem check_multitouch_down_up_maps (H : InputH) (t : touch_swipe_event)
    (slots : List (Int × ℚ)) :
    (check_multitouch_down_up H t slots).delta_xy = t.delta_xy ∧
    (check_multitouch_down_up H t slots).prev_xy = t.prev_xy := by
  unfold check_multitouch_down_up
  split
  · split
    · dsimp only
      split <;> exact ⟨rfl, rfl⟩
    · exact ⟨rfl, rfl⟩
  · exact ⟨rfl, rfl⟩

/-- On an unclean session `check_multitouch_down_up` does nothing. -/
theorem check_multitouch_down_up_unclean (H : InputH) (t : touch_swipe_event)
    (slots : List (Int × ℚ)) (h : t.isClean = false) :
    check_multitouch_down_up H t slots = t := by
  simp [check_multitouch_down_up, h]

/-- The loop of `handle_touch_event_up` never sets the clean flag. -/
theorem swipe_loop_unclean (entries : slot_map) (st : swipe_loop_state)
    (h : st.isClean = false) : (swipe_loop entries st).isClean = false := by
  induction entries generalizing st with
  | nil => exact h
  | cons e rest ih =>
    obtain ⟨k, x, y⟩ := e
    unfold swipe_loop
    apply ih
    dsimp only
    rw [h]
    split
    · split <;> rfl
    · rfl

/-- An up-event on an unclean session performs nothing; it leaves the session
unclean with the stamp appended when the counts do not balance, and resets
the session when they do. -/
theorem handle_touch_event_up_unclean (H : InputH) (t : touch_swipe_event)
    (tev : libinput_event_touch) (h : t.isClean = false) :
    handle_touch_event_up H t tev =
      if (t.up_slots ++ [(tev.slot, tev.time)]).length = t.down_slots.length then
        (H.touch_init, [])
      else ({ t with up_slots := t.up_slots ++ [(tev.slot, tev.time)] }, []) := by
  unfold handle_touch_event_up
  have hc : check_multitouch_down_up H
      { t with up_slots := t.up_slots ++ [(tev.slot, tev.time)] }
      (t.up_slots ++ [(tev.slot, tev.time)]) =
      { t with up_slots := t.up_slots ++ [(tev.slot, tev.time)] } :=
    check_multitouch_down_up_unclean H _ _ h
  simp only [hc]
  by_cases hb : (t.up_slots ++ [(tev.slot, tev.time)]).length = t.down_slots.length
  · rw [if_pos hb, if_pos hb]
    have hl := swipe_loop_unclean t.delta_xy { swipes := [], swipe_type := none, isClean := t.isClean } h
    simp [hl]
  · rw [if_neg hb, if_neg hb]

/-- C16: the clean flag only goes from true to false within a session. On a
session with `isClean = false`, a down event, a motion event and an up event
that does not balance the counts each leave `isClean` false, and an up event,
balancing or not, performs no trigger. -/
theorem touch_unclean_is_monotonic (H : InputH) (t : touch_swipe_event)
    (tev : libinput_event_touch) (h : t.isClean = false) :
    (handle_touch_event_down H t tev).isClean = false ∧
    (handle_touch_event_motion t tev).isClean = false ∧
    ((t.up_slots ++ [(tev.slot, tev.time)]).length ≠ t.down_slots.length →
      (handle_touch_event_up H t tev).1.isClean = false) ∧
    ((t.up_slots ++ [(tev.slot, tev.time)]).length = t.down_slots.length →
      (handle_touch_event_up H t tev).2 = []) ∧
    (handle_touch_event_up H t tev).2 = [] := by
  refine ⟨?_, ?_, ?_, ?_, ?_⟩
  · show (check_multitouch_down_up H
        { t with down_slots := t.down_slots ++ [(tev.slot, tev.time)] }
        (t.down_slots ++ [(tev.slot, tev.time)])).isClean = false
    have hc : check_multitouch_down_up H
        { t with down_slots := t.down_slots ++ [(tev.slot, tev.time)] }
        (t.down_slots ++ [(tev.slot, tev.time)]) =
        { t with down_slots := t.down_slots ++ [(tev.slot, tev.time)] } :=
      check_multitouch_down_up_unclean H _ _ h
    rw [hc]
    exact h
  · unfold handle_touch_event_motion
    split <;> exact h
  · intro hb
    rw [handle_touch_event_up_unclean H t tev h, if_neg hb]
    exact h
  · intro hb
    rw [handle_touch_event_up_unclean H t tev h, if_pos hb]
  · rw [handle_touch_event_up_unclean H t tev h]
    split <;> rfl

/-- Witness for C16: the session `touch_one_down` made unclean; the up event
of slot 0 balances it and performs nothing. -/
theorem touch_unclean_is_monotonic_witness :
    ({ touch_one_down with isClean := false } : touch_swipe_event).isClean = false ∧
    (handle_touch_event_up input_h { touch_one_down with isClean := false }
      touch_up_at_50).2 = [] :=
  ⟨rfl, (touch_unclean_is_monotonic input_h { touch_one_down with isClean := false }
    touch_up_at_50 rfl).2.2.2.2⟩

/-- C17: on a fresh session of the header `input_h`, the motion samples
(0, 0), (10, 0), (30, 0) of slot 0 leave the recorded displacement (20, 0),
the last delta alone, and not the sum (30, 0) of the deltas; the stored
absolute position is the last sample. The else branch of
`handle_touch_event_motion` assigns the delta instead of adding it. -/
theorem touch_motion_keeps_last_delta :
    (touch_run input_h input_h.touch_init
      [libinput_event.TOUCH_MOTION (touch_at 0 1 0 0),
        libinput_event.TOUCH_MOTION (touch_at 0 2 10 0),
        libinput_event.TOUCH_MOTION (touch_at 0 3 30 0)]).1.delta_xy = [(0, (20, 0))] ∧
    (touch_run input_h input_h.touch_init
      [libinput_event.TOUCH_MOTION (touch_at 0 1 0 0),
        libinput_event.TOUCH_MOTION (touch_at 0 2 10 0),
        libinput_event.TOUCH_MOTION (touch_at 0 3 30 0)]).1.prev_xy = [(0, (30, 0))] ∧
    ((20 : ℚ), (0 : ℚ)) ≠ (30 - 0, 0 - 0) := by
  refine ⟨?_, ?_, ?_⟩
  · norm_num [touch_run, handle_touch_event, handle_touch_event_motion, map_find, map_insert,
      map_assign, InputH.touch_init, touch_at]
  · norm_num [touch_run, handle_touch_event, handle_touch_event_motion, map_find, map_insert,
      map_assign, InputH.touch_init, touch_at]
  · norm_num


/-- A motion event changes neither vector nor the clean flag. -/
theorem handle_touch_event_motion_frame (t : touch_swipe_event) (tev : libinput_event_touch) :
    (handle_touch_event_motion t tev).isClean = t.isClean ∧
    (handle_touch_event_motion t tev).down_slots = t.down_slots ∧
    (handle_touch_event_motion t tev).up_slots = t.up_slots := by
  unfold handle_touch_event_motion
  split <;> exact ⟨rfl, rfl, rfl⟩

/-- A run of motion events performs nothing and changes neither vector nor
the clean flag. -/
theorem touch_run_motions (H : InputH) (t : touch_swipe_event)
    (ms : List libinput_event_touch) :
    (touch_run H t (ms.map libinput_event.TOUCH_MOTION)).2 = [] ∧
    (touch_run H t (ms.map libinput_event.TOUCH_MOTION)).1.isClean = t.isClean ∧
    (touch_run H t (ms.map libinput_event.TOUCH_MOTION)).1.down_slots = t.down_slots ∧
    (touch_run H t (ms.map libinput_event.TOUCH_MOTION)).1.up_slots = t.up_slots := by
  induction ms generalizing t with
  | nil => exact ⟨rfl, rfl, rfl, rfl⟩
  | cons m rest ih =>
    obtain ⟨h1, h2, h3⟩ := handle_touch_event_motion_frame t m
    obtain ⟨i1, i2, i3, i4⟩ := ih (handle_touch_event_motion t m)
    rw [List.map_cons, touch_run_cons]
    exact ⟨by simpa [handle_touch_event] using i1, i2.trans h1, i3.trans h2, i4.trans h3⟩

/-- An event followed by motion events performs what the event performs, and
the vectors and the clean flag are those the event leaves. -/
theorem touch_run_event_then_motions (H : InputH) (t : touch_swipe_event)
    (ev : libinput_event) (ms : List libinput_event_touch) :
    (touch_run H t (ev :: ms.map libinput_event.TOUCH_MOTION)).2 =
      (handle_touch_event H t ev).2 ∧
    (touch_run H t (ev :: ms.map libinput_event.TOUCH_MOTION)).1.isClean =
      (handle_touch_event H t ev).1.isClean ∧
    (touch_run H t (ev :: ms.map libinput_event.TOUCH_MOTION)).1.down_slots =
      (handle_touch_event H t ev).1.down_slots ∧
    (touch_run H t (ev :: ms.map libinput_event.TOUCH_MOTION)).1.up_slots =
      (handle_touch_event H t ev).1.up_slots := by
  obtain ⟨h1, h2, h3, h4⟩ := touch_run_motions H (handle_touch_event H t ev).1 ms
  rw [touch_run_cons]
  refine ⟨?_, h2, h3, h4⟩
  show (handle_touch_event H t ev).2 ++ _ = _
  rw [h1, List.append_nil]

/-- A down event appends its stamp to `down_slots` and leaves `up_slots`. -/
theorem handle_touch_event_down_slots (H : InputH) (t : touch_swipe_event)
    (tev : libinput_event_touch) :
    (handle_touch_event_down H t tev).down_slots = t.down_slots ++ [(tev.slot, tev.time)] ∧
    (handle_touch_event_down H t tev).up_slots = t.up_slots := by
  have h := check_multitouch_down_up_slots H
    { t with down_slots := t.down_slots ++ [(tev.slot, tev.time)] }
    (t.down_slots ++ [(tev.slot, tev.time)])
  exact ⟨h.2, h.1⟩

/-- A second down event later than `THRESH` after the first leaves the session
unclean. -/
theorem handle_touch_event_down_late (H : InputH) (t : touch_swipe_event)
    (a : Int × ℚ) (b : libinput_event_touch) (hd : t.down_slots = [a])
    (hlate : b.time - a.2 > H.THRESH) :
    (handle_touch_event_down H t b).isClean = false := by
  have hn : ¬ (b.time - a.2 ≤ H.THRESH) := not_le.mpr hlate
  cases hc : t.isClean <;>
    simp [handle_touch_event_down, check_multitouch_down_up, hd, hc, hn]

/-- C19: from a fresh session, if the second contact goes down more than
`THRESH` after the first, then whatever motion events occur and whatever the
slots and times of the two up events are, the whole session performs no
trigger, and after the second up event the session is the fresh one again. -/
theorem touch_late_second_finger (H : InputH) (a b u1 u2 : libinput_event_touch)
    (m1 m2 m3 : List libinput_event_touch) (hlate : b.time - a.time > H.THRESH) :
    touch_run H H.touch_init
      ((libinput_event.TOUCH_DOWN a :: m1.map libinput_event.TOUCH_MOTION) ++
        (libinput_event.TOUCH_DOWN b :: m2.map libinput_event.TOUCH_MOTION) ++
        (libinput_event.TOUCH_UP u1 :: m3.map libinput_event.TOUCH_MOTION) ++
        [libinput_event.TOUCH_UP u2]) = (H.touch_init, []) := by
  -- first down event and the motions after it
  obtain ⟨R1, hR1⟩ : ∃ R, touch_run H H.touch_init
      (libinput_event.TOUCH_DOWN a :: m1.map libinput_event.TOUCH_MOTION) = R := ⟨_, rfl⟩
  have f1 := touch_run_event_then_motions H H.touch_init (libinput_event.TOUCH_DOWN a) m1
  rw [hR1] at f1
  have g1 := handle_touch_event_down_slots H H.touch_init a
  have e1 : R1.2 = [] := f1.1
  have d1 : R1.1.down_slots = [(a.slot, a.time)] := f1.2.2.1.trans g1.1
  have p1 : R1.1.up_slots = [] := f1.2.2.2.trans g1.2
  -- second down event and the motions after it
  obtain ⟨R2, hR2⟩ : ∃ R, touch_run H R1.1
      (libinput_event.TOUCH_DOWN b :: m2.map libinput_event.TOUCH_MOTION) = R := ⟨_, rfl⟩
  have f2 := touch_run_event_then_motions H R1.1 (libinput_event.TOUCH_DOWN b) m2
  rw [hR2] at f2
  have g2 := handle_touch_event_down_slots H R1.1 b
  have e2 : R2.2 = [] := f2.1
  have c2 : R2.1.isClean = false :=
    f2.2.1.trans (handle_touch_event_down_late H R1.1 (a.slot, a.time) b d1 hlate)
  have d2 : R2.1.down_slots = [(a.slot, a.time), (b.slot, b.time)] := by
    rw [f2.2.2.1]
    show (handle_touch_event_down H R1.1 b).down_slots = _
    rw [g2.1, d1]
    rfl
  have p2 : R2.1.up_slots = [] := by
    rw [f2.2.2.2]
    show (handle_touch_event_down H R1.1 b).up_slots = _
    rw [g2.2, p1]
  -- first up event: the counts are 1 and 2
  have hu1 : handle_touch_event_up H R2.1 u1 =
      ({ R2.1 with up_slots := R2.1.up_slots ++ [(u1.slot, u1.time)] }, []) := by
    rw [handle_touch_event_up_unclean H R2.1 u1 c2, if_neg]
    rw [p2, d2]
    simp
  obtain ⟨R3, hR3⟩ : ∃ R, touch_run H R2.1
      (libinput_event.TOUCH_UP u1 :: m3.map libinput_event.TOUCH_MOTION) = R := ⟨_, rfl⟩
  have f3 := touch_run_event_then_motions H R2.1 (libinput_event.TOUCH_UP u1) m3
  rw [hR3] at f3
  have hev : handle_touch_event H R2.1 (libinput_event.TOUCH_UP u1) =
      ({ R2.1 with up_slots := R2.1.up_slots ++ [(u1.slot, u1.time)] }, []) := hu1
  rw [hev] at f3
  have e3 : R3.2 = [] := f3.1
  have c3 : R3.1.isClean = false := f3.2.1.trans c2
  have d3 : R3.1.down_slots = [(a.slot, a.time), (b.slot, b.time)] := f3.2.2.1.trans d2
  have p3 : R3.1.up_slots = [(u1.slot, u1.time)] := by
    rw [f3.2.2.2]
    show R2.1.up_slots ++ [(u1.slot, u1.time)] = _
    rw [p2]
    rfl
  -- second up event: the counts balance
  have hu2 : handle_touch_event_up H R3.1 u2 = (H.touch_init, []) := by
    rw [handle_touch_event_up_unclean H R3.1 u2 c3, if_pos]
    rw [p3, d3]
    rfl
  have r4 : touch_run H R3.1 [libinput_event.TOUCH_UP u2] = (H.touch_init, []) := by
    rw [touch_run_cons]
    show ((touch_run H (handle_touch_event_up H R3.1 u2).1 []).1,
      (handle_touch_event_up H R3.1 u2).2 ++ (touch_run H (handle_touch_event_up H R3.1 u2).1 []).2) = _
    rw [hu2]
    rfl
  rw [touch_run_append, touch_run_append, touch_run_append, hR1, hR2, hR3, r4, e1, e2, e3]
  rfl

/-- Witness for C19 on the header `input_h` (`THRESH` = 100): slot 0 goes down
at time 0 and slot 1 at time 500; both move right; both lift. -/
theorem touch_late_second_finger_witness :
    (touch_at 1 500 200 100).time - (touch_at 0 0 100 100).time > input_h.THRESH ∧
    touch_run input_h input_h.touch_init
      ((libinput_event.TOUCH_DOWN (touch_at 0 0 100 100) ::
          [touch_at 0 10 100 100].map libinput_event.TOUCH_MOTION) ++
        (libinput_event.TOUCH_DOWN (touch_at 1 500 200 100) ::
          [touch_at 0 510 160 100, touch_at 1 510 200 100, touch_at 1 520 260 100].map
            libinput_event.TOUCH_MOTION) ++
        (libinput_event.TOUCH_UP (touch_at 0 600 160 100) ::
          ([] : List libinput_event_touch).map libinput_event.TOUCH_MOTION) ++
        [libinput_event.TOUCH_UP (touch_at 1 610 260 100)]) = (input_h.touch_init, []) :=
  ⟨by norm_num [touch_at, input_h],
    touch_late_second_finger input_h _ _ _ _ _ _ _ (by norm_num [touch_at, input_h])⟩


/-- When the loop of `handle_touch_event_up` ends with the clean flag set, the
flag was set before, every entry classifies to the last direction pushed
before the loop (when there is one), and any two entries classify alike. -/
theorem swipe_loop_clean (entries : slot_map) (st : swipe_loop_state)
    (h : (swipe_loop entries st).isClean = true) :
    st.isClean = true ∧
    (∀ e ∈ entries, ∀ b, st.swipes.getLast? = some b → get_swipe_type e.2.1 e.2.2 = b) ∧
    (∀ e1 ∈ entries, ∀ e2 ∈ entries,
      get_swipe_type e1.2.1 e1.2.2 = get_swipe_type e2.2.1 e2.2.2) := by
  induction entries generalizing st with
  | nil =>
    exact ⟨h, fun e he => absurd he (List.not_mem_nil _), fun e he => absurd he (List.not_mem_nil _)⟩
  | cons e rest ih =>
    obtain ⟨k, x, y⟩ := e
    unfold swipe_loop at h
    obtain ⟨hc, hlast, hpair⟩ := ih _ h
    dsimp only at hc hlast hpair
    have hrest : ∀ e ∈ rest, get_swipe_type e.2.1 e.2.2 = get_swipe_type x y :=
      fun e he => hlast e he (get_swipe_type x y) (by simp)
    have hst : st.isClean = true ∧ ∀ b, st.swipes.getLast? = some b → get_swipe_type x y = b := by
      cases hl : st.swipes.getLast? with
      | none =>
        rw [hl] at hc
        exact ⟨hc, fun b hb => absurd hb (by simp)⟩
      | some back =>
        rw [hl] at hc
        dsimp only at hc
        by_cases hne : get_swipe_type x y ≠ back
        · rw [if_pos hne] at hc
          exact absurd hc (by simp)
        · rw [if_neg hne] at hc
          refine ⟨hc, fun b hb => ?_⟩
          have : back = b := Option.some.inj hb
          rw [← this]
          exact not_not.mp hne
    refine ⟨hst.1, ?_, ?_⟩
    · intro e he b hb
      rcases List.mem_cons.mp he with rfl | he
      · exact hst.2 b hb
      · rw [hrest e he]
        exact hst.2 b hb
    · intro e1 he1 e2 he2
      rcases List.mem_cons.mp he1 with rfl | he1 <;> rcases List.mem_cons.mp he2 with rfl | he2
      · rfl
      · exact (hrest e2 he2).symm
      · exact hrest e1 he1
      · exact hpair e1 he1 e2 he2

/-- C20: an up event that performs a trigger (it then balances the counts)
found every pair of contacts, adjacent in the iteration or not, classifying to
the same direction, and as many slots with recorded motion as down events. So
when two contacts classify differently, or a down contact has no motion entry
and the two sizes differ, no trigger is performed. -/
theorem touch_trigger_requires_agreement (H : InputH) (t : touch_swipe_event)
    (tev : libinput_event_touch) :
    ((handle_touch_event_up H t tev).2 ≠ [] →
      (t.up_slots ++ [(tev.slot, tev.time)]).length = t.down_slots.length ∧
      (∀ e1 ∈ t.delta_xy, ∀ e2 ∈ t.delta_xy,
        get_swipe_type e1.2.1 e1.2.2 = get_swipe_type e2.2.1 e2.2.2) ∧
      t.delta_xy.length = t.down_slots.length) ∧
    ((∃ e1 ∈ t.delta_xy, ∃ e2 ∈ t.delta_xy,
        get_swipe_type e1.2.1 e1.2.2 ≠ get_swipe_type e2.2.1 e2.2.2) →
      (handle_touch_event_up H t tev).2 = []) ∧
    (t.delta_xy.length ≠ t.down_slots.length → (handle_touch_event_up H t tev).2 = []) := by
  have hmain : (handle_touch_event_up H t tev).2 ≠ [] →
      (t.up_slots ++ [(tev.slot, tev.time)]).length = t.down_slots.length ∧
      (∀ e1 ∈ t.delta_xy, ∀ e2 ∈ t.delta_xy,
        get_swipe_type e1.2.1 e1.2.2 = get_swipe_type e2.2.1 e2.2.2) ∧
      t.delta_xy.length = t.down_slots.length := by
    intro hfire
    have hs := check_multitouch_down_up_slots H
      { t with up_slots := t.up_slots ++ [(tev.slot, tev.time)] }
      (t.up_slots ++ [(tev.slot, tev.time)])
    have hm := check_multitouch_down_up_maps H
      { t with up_slots := t.up_slots ++ [(tev.slot, tev.time)] }
      (t.up_slots ++ [(tev.slot, tev.time)])
    unfold handle_touch_event_up at hfire
    simp only [hs.1, hs.2, hm.1] at hfire
    by_cases hb : (t.up_slots ++ [(tev.slot, tev.time)]).length = t.down_slots.length
    · rw [if_pos hb] at hfire
      dsimp only at hfire
      by_cases hlen : t.down_slots.length ≠ t.delta_xy.length
      · rw [if_pos hlen] at hfire
        exact absurd rfl hfire
      · rw [if_neg hlen] at hfire
        cases hcl : (swipe_loop t.delta_xy
            { swipes := [], swipe_type := none,
              isClean := (check_multitouch_down_up H
                { t with up_slots := t.up_slots ++ [(tev.slot, tev.time)] }
                (t.up_slots ++ [(tev.slot, tev.time)])).isClean }).isClean with
        | false =>
          rw [hcl] at hfire
          exact absurd rfl hfire
        | true =>
          exact ⟨hb, (swipe_loop_clean _ _ hcl).2.2, (not_not.mp hlen).symm⟩
    · rw [if_neg hb] at hfire
      exact absurd rfl hfire
  refine ⟨hmain, ?_, ?_⟩
  · rintro ⟨e1, he1, e2, he2, hne⟩
    by_contra hfire
    exact hne ((hmain hfire).2.1 e1 he1 e2 he2)
  · intro hlen
    by_contra hfire
    exact hlen (hmain hfire).2.2


/-- On a clean session whose stamps are each within `THRESH` of the one
before, `check_multitouch_down_up` keeps the session clean and, when there are
at least two stamps, sets the finger count to their number. -/
theorem check_multitouch_down_up_clean (H : InputH) (t : touch_swipe_event)
    (slots : List (Int × ℚ)) (hc : t.isClean = true)
    (hch : List.Chain' (within_thresh H) slots) :
    (check_multitouch_down_up H t slots).isClean = true ∧
    (1 < slots.length → (check_multitouch_down_up H t slots).fingers = (slots.length : Int)) := by
  have hflip : List.Chain' (flip (within_thresh H)) slots.reverse := by
    have h := (List.chain'_reverse (R := within_thresh H) (l := slots.reverse)).mp
    rw [List.reverse_reverse] at h
    exact h hch
  unfold check_multitouch_down_up
  by_cases hlen : slots.length > 1
  · have hcond : (t.isClean && decide (slots.length > 1)) = true := by simp [hc, hlen]
    rw [if_pos hcond]
    cases hrev : slots.reverse with
    | nil => exact ⟨hc, fun _ => by
        have : slots.length = 0 := by
          rw [← List.length_reverse, hrev]
          rfl
        omega⟩
    | cons iter tl =>
      cases tl with
      | nil => exact ⟨hc, fun _ => by
          have : slots.length = 1 := by
            rw [← List.length_reverse, hrev]
            rfl
          omega⟩
      | cons prev tl2 =>
        rw [hrev] at hflip
        have hw : iter.2 - prev.2 ≤ H.THRESH := (List.chain'_cons.mp hflip).1
        dsimp only
        rw [if_pos hw]
        exact ⟨hc, fun _ => rfl⟩
  · have hcond : ¬ ((t.isClean && decide (slots.length > 1)) = true) := by simp [hlen]
    rw [if_neg hcond]
    exact ⟨hc, fun h => absurd h hlen⟩

/-- An up event that does not balance the counts performs nothing and leaves
the session that `check_multitouch_down_up` returns. -/
theorem handle_touch_event_up_open (H : InputH) (t : touch_swipe_event)
    (tev : libinput_event_touch)
    (hne : (t.up_slots ++ [(tev.slot, tev.time)]).length ≠ t.down_slots.length) :
    handle_touch_event_up H t tev =
      (check_multitouch_down_up H
        { t with up_slots := t.up_slots ++ [(tev.slot, tev.time)] }
        (t.up_slots ++ [(tev.slot, tev.time)]), []) := by
  have hs := check_multitouch_down_up_slots H
    { t with up_slots := t.up_slots ++ [(tev.slot, tev.time)] }
    (t.up_slots ++ [(tev.slot, tev.time)])
  unfold handle_touch_event_up
  simp only [hs.1, hs.2]
  rw [if_neg hne]

/-- When every entry classifies to `d` and the last direction pushed before
the loop, if any, is `d`, the loop of `handle_touch_event_up` leaves the clean
flag as it was and, over at least one entry, ends with `swipe_type = d`. -/
theorem swipe_loop_agree (entries : slot_map) (st : swipe_loop_state) (d : Int)
    (hdir : ∀ e ∈ entries, get_swipe_type e.2.1 e.2.2 = d)
    (hlast : ∀ b, st.swipes.getLast? = some b → b = d) :
    (swipe_loop entries st).isClean = st.isClean ∧
    (entries ≠ [] → (swipe_loop entries st).swipe_type = some d) := by
  induction entries generalizing st with
  | nil => exact ⟨rfl, fun h => absurd rfl h⟩
  | cons e rest ih =>
    obtain ⟨k, x, y⟩ := e
    have hx : get_swipe_type x y = d := hdir (k, x, y) (List.mem_cons_self _ _)
    have hrest : ∀ e ∈ rest, get_swipe_type e.2.1 e.2.2 = d :=
      fun e he => hdir e (List.mem_cons_of_mem _ he)
    unfold swipe_loop
    have hkeep : (match st.swipes.getLast? with
        | some back => if get_swipe_type x y ≠ back then false else st.isClean
        | none => st.isClean) = st.isClean := by
      cases hl : st.swipes.getLast? with
      | none => rfl
      | some back =>
        dsimp only
        have : get_swipe_type x y = back := by rw [hx, hlast back hl]
        rw [if_neg (not_not.mpr this)]
    obtain ⟨i1, i2⟩ := ih
      { swipes := st.swipes ++ [get_swipe_type x y], swipe_type := some (get_swipe_type x y),
        isClean := (match st.swipes.getLast? with
          | some back => if get_swipe_type x y ≠ back then false else st.isClean
          | none => st.isClean) } hrest
      (by
        intro b hb
        simp at hb
        rw [← hb, hx])
    dsimp only at i1 i2 ⊢
    refine ⟨i1.trans hkeep, fun _ => ?_⟩
    by_cases hr : rest = []
    · subst hr
      show some (get_swipe_type x y) = some d
      rw [hx]
    · exact i2 hr

/-- The up event that balances the counts of a clean session of at least two
contacts, lifted within `THRESH` of the previous up event, in which every
contact has a motion entry and all entries classify to `d`, performs the
single trigger (d, number of contacts) and resets the session. -/
theorem handle_touch_event_up_clean_balance (H : InputH) (t : touch_swipe_event)
    (tev : libinput_event_touch) (d : Int) (hc : t.isClean = true)
    (hch : List.Chain' (within_thresh H) (t.up_slots ++ [(tev.slot, tev.time)]))
    (hbal : (t.up_slots ++ [(tev.slot, tev.time)]).length = t.down_slots.length)
    (h2 : 2 ≤ t.down_slots.length)
    (hlen : t.delta_xy.length = t.down_slots.length)
    (hdir : ∀ e ∈ t.delta_xy, get_swipe_type e.2.1 e.2.2 = d) :
    handle_touch_event_up H t tev =
      (H.touch_init, [Effect.swipe d (t.down_slots.length : Int)]) := by
  have hs := check_multitouch_down_up_slots H
    { t with up_slots := t.up_slots ++ [(tev.slot, tev.time)] }
    (t.up_slots ++ [(tev.slot, tev.time)])
  have hm := check_multitouch_down_up_maps H
    { t with up_slots := t.up_slots ++ [(tev.slot, tev.time)] }
    (t.up_slots ++ [(tev.slot, tev.time)])
  obtain ⟨hk, hf⟩ := check_multitouch_down_up_clean H
    { t with up_slots := t.up_slots ++ [(tev.slot, tev.time)] }
    (t.up_slots ++ [(tev.slot, tev.time)]) hc hch
  have hfing := hf (by rw [hbal]; omega)
  have hne : t.delta_xy ≠ [] := by
    intro h0
    rw [h0] at hlen
    simp at hlen
    omega
  obtain ⟨l1, l2⟩ := swipe_loop_agree t.delta_xy
    { swipes := [], swipe_type := none,
      isClean := (check_multitouch_down_up H
        { t with up_slots := t.up_slots ++ [(tev.slot, tev.time)] }
        (t.up_slots ++ [(tev.slot, tev.time)])).isClean } d hdir
    (by intro b hb; simp at hb)
  have l2' := l2 hne
  rw [hk] at l1
  unfold handle_touch_event_up
  simp only [hs.1, hs.2, hm.1, hk, hfing]
  rw [hk] at l2'
  rw [if_pos hbal, if_neg (not_not.mpr hlen.symm), l1, if_pos rfl, l2', hbal]
  rfl

/-- An event that performs nothing can be dropped from the front of a run
once its effect on the session is applied. -/
theorem touch_run_cons_quiet (H : InputH) (t t' : touch_swipe_event) (ev : libinput_event)
    (rest : List libinput_event) (h : handle_touch_event H t ev = (t', [])) :
    touch_run H t (ev :: rest) = touch_run H t' rest := by
  rw [touch_run_cons, h]
  rfl

/-- A clean session stays clean and open, and performs nothing, over a run of
events in which every down stamp and every up stamp is within `THRESH` of the
one before and no up event balances the counts; the stamps are appended to the
two vectors. -/
theorem touch_run_clean (H : InputH) (evs : List libinput_event) (t : touch_swipe_event)
    (hc : t.isClean = true)
    (hd : List.Chain' (within_thresh H) (t.down_slots ++ down_stamps evs))
    (hu : List.Chain' (within_thresh H) (t.up_slots ++ up_stamps evs))
    (hopen : no_early_balance t.down_slots.length t.up_slots.length evs = true) :
    (touch_run H t evs).2 = [] ∧
    (touch_run H t evs).1.isClean = true ∧
    (touch_run H t evs).1.down_slots = t.down_slots ++ down_stamps evs ∧
    (touch_run H t evs).1.up_slots = t.up_slots ++ up_stamps evs := by
  induction evs generalizing t with
  | nil => simp [touch_run, down_stamps, up_stamps, hc]
  | cons ev rest ih =>
    cases ev with
    | TOUCH_DOWN tev =>
      have hsl := handle_touch_event_down_slots H t tev
      have hd' : List.Chain' (within_thresh H)
          ((t.down_slots ++ [(tev.slot, tev.time)]) ++ down_stamps rest) := by
        simpa [down_stamps] using hd
      have hcl : (handle_touch_event_down H t tev).isClean = true :=
        (check_multitouch_down_up_clean H
          { t with down_slots := t.down_slots ++ [(tev.slot, tev.time)] }
          (t.down_slots ++ [(tev.slot, tev.time)]) hc hd'.left_of_append).1
      obtain ⟨i1, i2, i3, i4⟩ := ih (handle_touch_event_down H t tev) hcl
        (by rw [hsl.1]; exact hd')
        (by rw [hsl.2]; simpa [up_stamps] using hu)
        (by
          rw [hsl.1, hsl.2]
          simpa [no_early_balance] using hopen)
      rw [touch_run_cons_quiet H t _ _ rest rfl]
      refine ⟨i1, i2, ?_, ?_⟩
      · rw [i3, hsl.1]
        simp [down_stamps]
      · rw [i4, hsl.2]
        simp [up_stamps]
    | TOUCH_UP tev =>
      have hopen' : (t.up_slots.length + 1 != t.down_slots.length) = true ∧
          no_early_balance t.down_slots.length (t.up_slots.length + 1) rest = true := by
        simpa [no_early_balance] using hopen
      have hne : (t.up_slots ++ [(tev.slot, tev.time)]).length ≠ t.down_slots.length := by
        have := hopen'.1
        simp only [bne_iff_ne, ne_eq] at this
        simpa using this
      have hu' : List.Chain' (within_thresh H)
          ((t.up_slots ++ [(tev.slot, tev.time)]) ++ up_stamps rest) := by
        simpa [up_stamps] using hu
      have hev : handle_touch_event H t (libinput_event.TOUCH_UP tev) =
          (check_multitouch_down_up H
            { t with up_slots := t.up_slots ++ [(tev.slot, tev.time)] }
            (t.up_slots ++ [(tev.slot, tev.time)]), []) :=
        handle_touch_event_up_open H t tev hne
      have hsl := check_multitouch_down_up_slots H
        { t with up_slots := t.up_slots ++ [(tev.slot, tev.time)] }
        (t.up_slots ++ [(tev.slot, tev.time)])
      have hcl := (check_multitouch_down_up_clean H
        { t with up_slots := t.up_slots ++ [(tev.slot, tev.time)] }
        (t.up_slots ++ [(tev.slot, tev.time)]) hc hu'.left_of_append).1
      obtain ⟨i1, i2, i3, i4⟩ := ih _ hcl
        (by rw [hsl.2]; simpa [down_stamps] using hd)
        (by rw [hsl.1]; exact hu')
        (by
          rw [hsl.1, hsl.2]
          simpa using hopen'.2)
      rw [touch_run_cons_quiet H t _ _ rest hev]
      refine ⟨i1, i2, ?_, ?_⟩
      · rw [i3, hsl.2]
        simp [down_stamps]
      · rw [i4, hsl.1]
        simp [up_stamps]
    | TOUCH_MOTION tev =>
      obtain ⟨m1, m2, m3⟩ := handle_touch_event_motion_frame t tev
      obtain ⟨i1, i2, i3, i4⟩ := ih (handle_touch_event_motion t tev) (m1.trans hc)
        (by rw [m2]; simpa [down_stamps] using hd)
        (by rw [m3]; simpa [up_stamps] using hu)
        (by
          rw [m2, m3]
          simpa [no_early_balance] using hopen)
      rw [touch_run_cons_quiet H t _ _ rest rfl]
      refine ⟨i1, i2, ?_, ?_⟩
      · rw [i3, m2]
        simp [down_stamps]
      · rw [i4, m3]
        simp [up_stamps]
    | _ =>
      obtain ⟨i1, i2, i3, i4⟩ := ih t hc (by simpa [down_stamps] using hd)
        (by simpa [up_stamps] using hu) (by simpa [no_early_balance] using hopen)
      rw [touch_run_cons]
      refine ⟨i1, i2, i3.trans ?_, i4.trans ?_⟩
      · simp [down_stamps]
      · simp [up_stamps]


/-- C18: on a header whose fresh touch session is clean, let `body` followed
by the up event `last` be a session from the fresh state with n ≥ 2 down events
and n up events, `last` being the first up event that balances the counts,
every down stamp at most `THRESH` after the previous down stamp and every up
stamp at most `THRESH` after the previous up stamp, and let the motion events
of `body` leave one displacement entry per contact (n entries), all classifying
to the direction `d`. Then no event of `body` performs anything, the event
`last` performs the single trigger (d, n), and the session is fresh again. -/
theorem touch_happy_path (H : InputH) (hclean : H.touch_isClean_init = true)
    (body : List libinput_event) (last : libinput_event_touch) (d : Int)
    (hn : 2 ≤ (down_stamps body).length)
    (hbal : (up_stamps body).length + 1 = (down_stamps body).length)
    (hopen : no_early_balance 0 0 body = true)
    (hdown : List.Chain' (within_thresh H) (down_stamps body))
    (hup : List.Chain' (within_thresh H) (up_stamps body ++ [(last.slot, last.time)]))
    (hmoved : (touch_run H H.touch_init body).1.delta_xy.length = (down_stamps body).length)
    (hdir : ∀ e ∈ (touch_run H H.touch_init body).1.delta_xy,
      get_swipe_type e.2.1 e.2.2 = d) :
    (touch_run H H.touch_init body).2 = [] ∧
    (handle_touch_event_up H (touch_run H H.touch_init body).1 last).2 =
      [Effect.swipe d ((down_stamps body).length : Int)] ∧
    touch_run H H.touch_init (body ++ [libinput_event.TOUCH_UP last]) =
      (H.touch_init, [Effect.swipe d ((down_stamps body).length : Int)]) := by
  obtain ⟨r1, r2, r3, r4⟩ := touch_run_clean H body H.touch_init hclean
    (by simpa [InputH.touch_init] using hdown)
    (by simpa [InputH.touch_init] using hup.left_of_append)
    (by simpa [InputH.touch_init] using hopen)
  have r3' : (touch_run H H.touch_init body).1.down_slots = down_stamps body := by
    rw [r3]
    rfl
  have r4' : (touch_run H H.touch_init body).1.up_slots = up_stamps body := by
    rw [r4]
    rfl
  have hfin := handle_touch_event_up_clean_balance H (touch_run H H.touch_init body).1 last d r2
    (by rw [r4']; exact hup)
    (by rw [r4', r3', List.length_append]; exact hbal)
    (by rw [r3']; exact hn)
    (by rw [r3']; exact hmoved)
    hdir
  rw [r3'] at hfin
  refine ⟨r1, by rw [hfin], ?_⟩
  rw [touch_run_append, r1, touch_run_cons]
  show ((touch_run H (handle_touch_event_up H _ last).1 []).1,
    [] ++ ((handle_touch_event_up H _ last).2 ++ (touch_run H (handle_touch_event_up H _ last).1 []).2)) = _
  rw [hfin]
  rfl

/-- Witness for C18 on the header `input_h` (`THRESH` = 100): the two-finger
swipe to the right `touch_two_finger_swipe`, ended by the up event of slot 1 at
time 320, performs the single trigger (6, 2). -/
theorem touch_happy_path_witness :
    touch_run input_h input_h.touch_init
      (touch_two_finger_swipe ++ [libinput_event.TOUCH_UP (touch_at 1 320 260 100)]) =
      (input_h.touch_init, [Effect.swipe 6 2]) := by
  have hstate : (touch_run input_h input_h.touch_init touch_two_finger_swipe).1.delta_xy =
      [(0, (60, 0)), (1, (60, 0))] := by
    norm_num [touch_two_finger_swipe, touch_run, handle_touch_event, handle_touch_event_down,
      handle_touch_event_up, handle_touch_event_motion, check_multitouch_down_up, map_find,
      map_insert, map_assign, InputH.touch_init, input_h, touch_at]
  have h := touch_happy_path input_h rfl touch_two_finger_swipe (touch_at 1 320 260 100) 6
    (by simp [touch_two_finger_swipe, down_stamps])
    (by simp [touch_two_finger_swipe, down_stamps, up_stamps])
    (by simp [touch_two_finger_swipe, no_early_balance])
    (by norm_num [touch_two_finger_swipe, down_stamps, within_thresh, input_h, touch_at])
    (by norm_num [touch_two_finger_swipe, up_stamps, within_thresh, input_h, touch_at])
    (by rw [hstate]; simp [touch_two_finger_swipe, down_stamps])
    (by
      rw [hstate]
      intro e he
      simp only [List.mem_cons, List.mem_singleton, List.not_mem_nil, or_false] at he
      rcases he with rfl | rfl <;> norm_num [get_swipe_type, OBLIQUE_RATIO])
  have hcount : ((down_stamps touch_two_finger_swipe).length : Int) = 2 := by
    simp [touch_two_finger_swipe, down_stamps]
  rw [hcount] at h
  exact h.2.2


/-! ## The classifier: range, ties and symmetry -/

/-- The function `get_swipe_type` is its then-branch when `abs(x) > abs(y)`
and its else-branch otherwise. -/
theorem get_swipe_type_branches (dx dy : ℚ) :
    get_swipe_type dx dy =
      if |dx| > |dy| then x_dominant_branch dx dy else y_dominant_branch dx dy :=
  rfl

/-- C22, counterexample: at the tie (0, 0) the code returns 8, while the
x-dominant branch, 5 + (dx < 0 ? -1 : 1) with no oblique offset, gives 6. -/
theorem tie_at_zero_is_not_x_branch :
    |(0 : ℚ)| = |(0 : ℚ)| ∧ get_swipe_type 0 0 = 8 ∧ x_dominant_branch 0 0 = 6 ∧
    get_swipe_type 0 0 ≠ x_dominant_branch 0 0 := by
  refine ⟨rfl, ?_, ?_, ?_⟩
  · norm_num [get_swipe_type, OBLIQUE_RATIO]
  · norm_num [x_dominant_branch, OBLIQUE_RATIO]
  · norm_num [get_swipe_type, x_dominant_branch, OBLIQUE_RATIO]

/-- C22, amended: the comparison `abs(x) > abs(y)` is strict, so at a tie
|dx| = |dy| the code takes the y-axis (else) branch; away from (0, 0) that
branch and the x-dominant branch compute the same value, so the result equals
5 + (dx < 0 ? -1 : 1), plus (dy < 0 ? -3 : 3) when |dy| / |dx| > 0.414, and it
is the diagonal 5 + (dx < 0 ? -1 : 1) + (dy < 0 ? -3 : 3). -/
theorem get_swipe_type_at_tie (dx dy : ℚ) (htie : |dx| = |dy|) :
    get_swipe_type dx dy = y_dominant_branch dx dy ∧
    ((dx, dy) ≠ (0, 0) →
      get_swipe_type dx dy = x_dominant_branch dx dy ∧
      get_swipe_type dx dy = 5 + (if dx < 0 then -1 else 1) + (if dy < 0 then -3 else 3)) := by
  have hnot : ¬ (|dx| > |dy|) := by
    rw [htie]
    exact lt_irrefl _
  have hy : get_swipe_type dx dy = y_dominant_branch dx dy := by
    rw [get_swipe_type_branches, if_neg hnot]
  refine ⟨hy, fun hne => ?_⟩
  have hx0 : dx ≠ 0 := by
    intro h0
    rw [h0, abs_zero] at htie
    exact hne (by rw [h0, abs_eq_zero.mp htie.symm])
  have hy0 : dy ≠ 0 := by
    intro h0
    rw [h0, abs_zero] at htie
    exact hx0 (abs_eq_zero.mp htie)
  have hpx : |dx| ≠ 0 := abs_ne_zero.mpr hx0
  have hr1 : |dy| / |dx| > OBLIQUE_RATIO := by
    rw [← htie, div_self hpx]
    norm_num [ OBLIQUE_RATIO]
  have hr2 : |dx| / |dy| > OBLIQUE_RATIO := by
    rw [htie, div_self (htie ▸ hpx)]
    norm_num [ OBLIQUE_RATIO]
  have hxv : x_dominant_branch dx dy =
      5 + (if dx < 0 then -1 else 1) + (if dy < 0 then -3 else 3) := by
    unfold x_dominant_branch
    dsimp only
    rw [if_pos hr1]
  have hyv : y_dominant_branch dx dy =
      5 + (if dx < 0 then -1 else 1) + (if dy < 0 then -3 else 3) := by
    unfold y_dominant_branch
    dsimp only
    rw [if_pos hr2]
    ring
  exact ⟨by rw [hy, hyv, hxv], by rw [hy, hyv]⟩

/-- Witness for C22 (amended) at the tie (3, -3), classified right-up. -/
theorem get_swipe_type_at_tie_witness :
    |(3 : ℚ)| = |(-3 : ℚ)| ∧ get_swipe_type 3 (-3) = x_dominant_branch 3 (-3) :=
  ⟨by norm_num, ((get_swipe_type_at_tie 3 (-3) (by norm_num)).2 (by norm_num)).1⟩

/-- C23: the classifier returns one of 1, 2, 3, 4, 6, 7, 8, 9, never 5 and
never a value outside 1..9; each of them is a key of `SWIPE_COMMANDS`, so for
every command table and every finger count `get_command` returns without the
exception of `SWIPE_COMMANDS.at`. -/
theorem get_swipe_type_is_a_swipe_command (dx dy : ℚ) :
    get_swipe_type dx dy ∈ [1, 2, 3, 4, 6, 7, 8, 9] ∧
    get_swipe_type dx dy ≠ 5 ∧
    (MIN_DIRECTION ≤ get_swipe_type dx dy ∧ get_swipe_type dx dy ≤ MAX_DIRECTION) ∧
    (SWIPE_COMMANDS_at (get_swipe_type dx dy)).isSome = true ∧
    (∀ (commands : command_table) (fingers : Int),
      (get_command commands fingers (get_swipe_type dx dy)).isSome = true) := by
  have hmem : get_swipe_type dx dy ∈ [1, 2, 3, 4, 6, 7, 8, 9] := by
    rw [get_swipe_type_branches]
    unfold x_dominant_branch y_dominant_branch
    dsimp only
    by_cases hc : |dx| > |dy|
    · rw [if_pos hc]
      by_cases hr : |dy| / |dx| > OBLIQUE_RATIO
      · rw [if_pos hr]
        by_cases hx : dx < 0 <;> by_cases hy : dy < 0 <;> simp [hx, hy]
      · rw [if_neg hr]
        by_cases hx : dx < 0 <;> simp [hx]
    · rw [if_neg hc]
      by_cases hr : |dx| / |dy| > OBLIQUE_RATIO
      · rw [if_pos hr]
        by_cases hx : dx < 0 <;> by_cases hy : dy < 0 <;> simp [hx, hy]
      · rw [if_neg hr]
        by_cases hy : dy < 0 <;> simp [hy]
  have hat : ∀ v : Int, v ∈ [1, 2, 3, 4, 6, 7, 8, 9] →
      v ≠ 5 ∧ (MIN_DIRECTION ≤ v ∧ v ≤ MAX_DIRECTION) ∧ (SWIPE_COMMANDS_at v).isSome = true := by
    intro v hv
    simp only [List.mem_cons, List.mem_singleton, List.not_mem_nil, or_false] at hv
    rcases hv with rfl | rfl | rfl | rfl | rfl | rfl | rfl | rfl <;>
      exact ⟨by decide, ⟨by decide, by decide⟩, by decide⟩
  obtain ⟨h5, hrange, hsome⟩ := hat _ hmem
  refine ⟨hmem, h5, hrange, hsome, fun commands fingers => ?_⟩
  unfold get_command
  obtain ⟨name, hname⟩ := Option.isSome_iff_exists.mp hsome
  rw [hname]
  by_cases hcond : fingers > 1 ∧ get_swipe_type dx dy ≥ MIN_DIRECTION ∧
      get_swipe_type dx dy ≤ MAX_DIRECTION
  · rw [if_pos hcond]
    cases commands.lookup fingers <;> rfl
  · rw [if_neg hcond]
    rfl

/-- C24: away from (0, 0) the classifier is point-symmetric about the centre
of the grid, `get_swipe_type (-dx) (-dy) = 10 - get_swipe_type dx dy`. -/
theorem get_swipe_type_point_symmetric (dx dy : ℚ) (h : (dx, dy) ≠ (0, 0)) :
    get_swipe_type (-dx) (-dy) = 10 - get_swipe_type dx dy := by
  have hsx : ∀ q : ℚ, q ≠ 0 →
      (if -q < 0 then (-1 : Int) else 1) = -(if q < 0 then (-1 : Int) else 1) := by
    intro q hq
    rcases lt_or_gt_of_ne hq with hneg | hpos
    · have : ¬ (-q < 0) := by linarith
      rw [if_neg this, if_pos hneg]
      rfl
    · have h1 : -q < 0 := by linarith
      have h2 : ¬ (q < 0) := by linarith
      rw [if_pos h1, if_neg h2]
  have hsy : ∀ q : ℚ, q ≠ 0 →
      (if -q < 0 then (-3 : Int) else 3) = -(if q < 0 then (-3 : Int) else 3) := by
    intro q hq
    rcases lt_or_gt_of_ne hq with hneg | hpos
    · have : ¬ (-q < 0) := by linarith
      rw [if_neg this, if_pos hneg]
      rfl
    · have h1 : -q < 0 := by linarith
      have h2 : ¬ (q < 0) := by linarith
      rw [if_pos h1, if_neg h2]
  rw [get_swipe_type_branches, get_swipe_type_branches]
  unfold x_dominant_branch y_dominant_branch
  simp only [abs_neg]
  by_cases hc : |dx| > |dy|
  · have hx0 : dx ≠ 0 := by
      intro h0
      rw [h0, abs_zero] at hc
      exact absurd hc (not_lt.mpr (abs_nonneg dy))
    rw [if_pos hc, if_pos hc, hsx dx hx0]
    by_cases hr : |dy| / |dx| > OBLIQUE_RATIO
    · have hy0 : dy ≠ 0 := by
        intro h0
        rw [h0, abs_zero, zero_div] at hr
        norm_num [ OBLIQUE_RATIO] at hr
      rw [if_pos hr, if_pos hr, hsy dy hy0]
      ring
    · rw [if_neg hr, if_neg hr]
      ring
  · have hy0 : dy ≠ 0 := by
      intro h0
      rw [h0, abs_zero] at hc
      have hx0 : dx = 0 := by
        by_contra hne
        exact hc (abs_pos.mpr hne)
      exact h (by rw [hx0, h0])
    rw [if_neg hc, if_neg hc, hsy dy hy0]
    by_cases hr : |dx| / |dy| > OBLIQUE_RATIO
    · have hx0 : dx ≠ 0 := by
        intro h0
        rw [h0, abs_zero, zero_div] at hr
        norm_num [ OBLIQUE_RATIO] at hr
      rw [if_pos hr, if_pos hr, hsx dx hx0]
      ring
    · rw [if_neg hr, if_neg hr]
      ring

/-- Witness for C24 at (3, -2): right-up (3) against left-down (7). -/
theorem get_swipe_type_point_symmetric_witness :
    ((3 : ℚ), (-2 : ℚ)) ≠ (0, 0) ∧
    get_swipe_type (-3) (-(-2)) = 10 - get_swipe_type 3 (-2) :=
  ⟨by norm_num, get_swipe_type_point_symmetric 3 (-2) (by norm_num)⟩


/-! ## The step counter of the swipe tracker -/

/-- C21: an update that triggers leaves the step at `inc_step` of the step
that `gesture_swipe_event = {}` gives, whatever the step was before the
update, and the accumulated vector at its value-initialised value:
`trigger_swipe_command` resets the whole struct before `inc_step` runs. The
step therefore does not advance by one from its value before the update. -/
theorem swipe_step_after_trigger (H : InputH) (cfg : settings) (s : gesture_swipe_event)
    (gev : libinput_event_gesture)
    (hfire : (handle_swipe_event_with_coords H cfg s gev).2 ≠ []) :
    (handle_swipe_event_with_coords H cfg s gev).1.step = H.inc_step H.swipe_init.step ∧
    (handle_swipe_event_with_coords H cfg s gev).1.x = H.swipe_init.x ∧
    (handle_swipe_event_with_coords H cfg s gev).1.y = H.swipe_init.y := by
  rw [swipe_update_fires H cfg s gev hfire]
  exact ⟨rfl, rfl, rfl⟩

/-- Evaluation for C21: continuous policy, threshold 0.5, on the header
`input_h`; a gesture begun with 3 fingers, then updates to the right by 600
each. The step is 1 after the first trigger and still 1, not 2, after the
second; the second update fires on 600, which exceeds T = 500 and not
2T = 1000. -/
theorem swipe_step_after_trigger_witness :
    (swipe_updates input_h settings_continuous
      (handle_swipe_event_without_coords input_h settings_continuous
        (Input.Input input_h).gesture_swipe_event (gesture_with 3 1) true).1
      [swipe_update_by 600 0]).1.step = 1 ∧
    (handle_swipe_event_with_coords input_h settings_continuous
      (swipe_updates input_h settings_continuous
        (handle_swipe_event_without_coords input_h settings_continuous
          (Input.Input input_h).gesture_swipe_event (gesture_with 3 1) true).1
        [swipe_update_by 600 0]).1 (swipe_update_by 600 0)).2 ≠ [] ∧
    (handle_swipe_event_with_coords input_h settings_continuous
      (swipe_updates input_h settings_continuous
        (handle_swipe_event_without_coords input_h settings_continuous
          (Input.Input input_h).gesture_swipe_event (gesture_with 3 1) true).1
        [swipe_update_by 600 0]).1 (swipe_update_by 600 0)).1.step = 1 := by
  have h0 : double_to_int 0 = 0 := by norm_num [double_to_int]
  have h500 : double_to_int 500 = 500 := by norm_num [double_to_int]
  have h250 : double_to_int 250 = 250 := by norm_num [double_to_int]
  have hstate : (swipe_updates input_h settings_continuous
      (handle_swipe_event_without_coords input_h settings_continuous
        (Input.Input input_h).gesture_swipe_event (gesture_with 3 1) true).1
      [swipe_update_by 600 0]).1 =
      { fingers := 0, x := 0, y := 0, executed := true, step := 1 } := by
    norm_num [swipe_updates, handle_swipe_event_with_coords_unfold,
      handle_swipe_event_without_coords, settings_continuous, settings_one_shot, Input.Input,
      gesture_with, swipe_update_by, input_h, h0]
  have hfire : (handle_swipe_event_with_coords input_h settings_continuous
      (swipe_updates input_h settings_continuous
        (handle_swipe_event_without_coords input_h settings_continuous
          (Input.Input input_h).gesture_swipe_event (gesture_with 3 1) true).1
        [swipe_update_by 600 0]).1 (swipe_update_by 600 0)).2 ≠ [] := by
    rw [hstate]
    norm_num [handle_swipe_event_with_coords_unfold, settings_continuous, settings_one_shot,
      swipe_update_by, input_h, h500, h250]
  refine ⟨by rw [hstate], hfire, ?_⟩
  rw [(swipe_step_after_trigger input_h settings_continuous _ _ hfire).1]
  norm_num [input_h]

/-! ## The direction handed to `apply_swipe` by the touch synchronizer -/

/-- Over at least one entry the loop of `handle_touch_event_up` ends with
`swipe_type` assigned, to the direction of one of the entries. -/
theorem swipe_loop_assigned (entries : slot_map) (st : swipe_loop_state)
    (hne : entries ≠ []) :
    ∃ e ∈ entries, (swipe_loop entries st).swipe_type = some (get_swipe_type e.2.1 e.2.2) := by
  induction entries generalizing st with
  | nil => exact absurd rfl hne
  | cons e rest ih =>
    obtain ⟨k, x, y⟩ := e
    unfold swipe_loop
    by_cases hr : rest = []
    · subst hr
      exact ⟨(k, x, y), List.mem_cons_self _ _, rfl⟩
    · obtain ⟨e', he', h'⟩ := ih _ hr
      exact ⟨e', List.mem_cons_of_mem _ he', h'⟩

/-- C25: for every touch state and every up event, `apply_swipe` is never
called with the local `swipe_type` unassigned; when the up event performs a
trigger, the displacement map is not empty and the trigger is a single
`apply_swipe` whose direction is the classification of one of its entries. -/
theorem touch_trigger_direction_assigned (H : InputH) (t : touch_swipe_event)
    (tev : libinput_event_touch) :
    (∀ n : Int, Effect.swipe_unassigned n ∉ (handle_touch_event_up H t tev).2) ∧
    ((handle_touch_event_up H t tev).2 ≠ [] →
      t.delta_xy ≠ [] ∧
      ∃ e ∈ t.delta_xy, ∃ n : Int,
        (handle_touch_event_up H t tev).2 = [Effect.swipe (get_swipe_type e.2.1 e.2.2) n]) := by
  have hs := check_multitouch_down_up_slots H
    { t with up_slots := t.up_slots ++ [(tev.slot, tev.time)] }
    (t.up_slots ++ [(tev.slot, tev.time)])
  have hm := check_multitouch_down_up_maps H
    { t with up_slots := t.up_slots ++ [(tev.slot, tev.time)] }
    (t.up_slots ++ [(tev.slot, tev.time)])
  have hmain : (handle_touch_event_up H t tev).2 = [] ∨
      (t.delta_xy ≠ [] ∧ ∃ e ∈ t.delta_xy, ∃ n : Int,
        (handle_touch_event_up H t tev).2 = [Effect.swipe (get_swipe_type e.2.1 e.2.2) n]) := by
    unfold handle_touch_event_up
    simp only [hs.1, hs.2, hm.1]
    by_cases hb : (t.up_slots ++ [(tev.slot, tev.time)]).length = t.down_slots.length
    · rw [if_pos hb]
      by_cases hlen : t.down_slots.length ≠ t.delta_xy.length
      · left
        rw [if_pos hlen]
        rfl
      · rw [if_neg hlen]
        have hpos : t.delta_xy ≠ [] := by
          intro h0
          have h1 : t.down_slots.length = t.delta_xy.length := not_not.mp hlen
          rw [← hb, h0] at h1
          simp at h1
        cases hcl : (swipe_loop t.delta_xy
            { swipes := [], swipe_type := none,
              isClean := (check_multitouch_down_up H
                { t with up_slots := t.up_slots ++ [(tev.slot, tev.time)] }
                (t.up_slots ++ [(tev.slot, tev.time)])).isClean }).isClean with
        | false =>
          left
          rfl
        | true =>
          right
          obtain ⟨e, he, hty⟩ := swipe_loop_assigned t.delta_xy
            { swipes := [], swipe_type := none,
              isClean := (check_multitouch_down_up H
                { t with up_slots := t.up_slots ++ [(tev.slot, tev.time)] }
                (t.up_slots ++ [(tev.slot, tev.time)])).isClean } hpos
          refine ⟨hpos, e, he,
            (check_multitouch_down_up H
              { t with up_slots := t.up_slots ++ [(tev.slot, tev.time)] }
              (t.up_slots ++ [(tev.slot, tev.time)])).fingers, ?_⟩
          rw [if_pos rfl, hty]
          rfl
    · left
      rw [if_neg hb]
  constructor
  · intro n hn
    rcases hmain with h0 | ⟨_, e, _, m, hm'⟩
    · rw [h0] at hn
      exact absurd hn (List.not_mem_nil _)
    · rw [hm'] at hn
      simp at hn
  · intro hfire
    rcases hmain with h0 | h1
    · exact absurd h0 hfire
    · exact h1


/-! ## The pinch tracker: one-shot policy, shrinking side -/

/-- Under the one-shot policy, an update whose scale is at most
1 + threshold, on a gesture that has not fired and whose tracked scale is at
least 1 - threshold, performs nothing. -/
theorem pinch_update_one_shot_band (H : InputH) (cfg : settings) (p : gesture_pinch_event)
    (gev : libinput_event_gesture) (hone : cfg.pinch_one_shot = true)
    (hex : p.executed = false) (hlo : 1 - cfg.pinch_threshold ≤ p.scale)
    (hhi : gev.scale ≤ 1 + cfg.pinch_threshold) :
    handle_pinch_event H cfg p gev false = ({ p with scale := gev.scale }, []) := by
  rw [pinch_update_one_shot_open H cfg p gev hone hex]
  unfold handle_one_shot_pinch
  have h1 : ¬ (gev.scale > 1 + cfg.pinch_threshold) := not_lt.mpr hhi
  have h2 : ¬ (p.scale < 1 - cfg.pinch_threshold) := not_lt.mpr hlo
  by_cases hc : gev.scale > p.scale
  · rw [if_pos hc, if_neg h1]
  · rw [if_neg hc, if_neg h2]

/-- Under the one-shot policy, a run of updates whose scales all lie in
[1 - threshold, 1 + threshold], on a gesture that has not fired and whose
tracked scale is at least 1 - threshold, performs nothing and ends in such a
state. -/
theorem pinch_updates_one_shot_band (H : InputH) (cfg : settings) (p : gesture_pinch_event)
    (gevs : List libinput_event_gesture) (hone : cfg.pinch_one_shot = true)
    (hex : p.executed = false) (hlo : 1 - cfg.pinch_threshold ≤ p.scale)
    (hall : ∀ e ∈ gevs, 1 - cfg.pinch_threshold ≤ e.scale ∧ e.scale ≤ 1 + cfg.pinch_threshold) :
    (pinch_updates H cfg p gevs).2 = [] ∧
    (pinch_updates H cfg p gevs).1.executed = false ∧
    1 - cfg.pinch_threshold ≤ (pinch_updates H cfg p gevs).1.scale := by
  induction gevs generalizing p with
  | nil => exact ⟨rfl, hex, hlo⟩
  | cons g rest ih =>
    have hg := hall g (List.mem_cons_self _ _)
    have hrest : ∀ e ∈ rest,
        1 - cfg.pinch_threshold ≤ e.scale ∧ e.scale ≤ 1 + cfg.pinch_threshold :=
      fun e he => hall e (List.mem_cons_of_mem _ he)
    rw [pinch_updates_cons, pinch_update_one_shot_band H cfg p g hone hex hlo hg.2]
    exact ih { p with scale := g.scale } hex hg.1 hrest

/-- C12, amended: one-shot policy with a non-negative threshold. After pinch
begin, let the updates `first :: pre ++ [g, nxt]` be non-increasing in scale,
`first` carrying scale 1.0, no update of `pre` below 1 - pinch_threshold and
`g` below it. Then nothing is performed up to and including `g`, because the
scale-down branch tests the tracked scale; the next event `nxt`, which does
not grow, runs the pinch-out command; and whatever updates `post` follow, the
whole gesture performs that one command only. The event `nxt` may be the
pinch-end event, which `handle_event` hands to the same call. -/
theorem pinch_one_shot_shrinking (H : InputH) (cfg : settings)
    (hone : cfg.pinch_one_shot = true) (ht : 0 ≤ cfg.pinch_threshold)
    (p0 : gesture_pinch_event) (gbegin first g nxt : libinput_event_gesture)
    (pre post : List libinput_event_gesture)
    (hfirst : first.scale = 1)
    (hmono : List.Sorted (· ≥ ·) (List.map (fun e => e.scale) (first :: pre ++ [g, nxt])))
    (hpre : ∀ e ∈ pre, 1 - cfg.pinch_threshold ≤ e.scale)
    (hg : g.scale < 1 - cfg.pinch_threshold) :
    (pinch_updates H cfg (handle_pinch_event H cfg p0 gbegin true).1
      (first :: pre ++ [g])).2 = [] ∧
    (handle_pinch_event H cfg
      (pinch_updates H cfg (handle_pinch_event H cfg p0 gbegin true).1 (first :: pre ++ [g])).1
      nxt false).2 = [Effect.pinch_command pinch.PINCH_OUT] ∧
    (pinch_updates H cfg (handle_pinch_event H cfg p0 gbegin true).1
      (first :: pre ++ g :: nxt :: post)).2 = [Effect.pinch_command pinch.PINCH_OUT] ∧
    (∀ i : Input,
      (handle_event H cfg i (libinput_event.GESTURE_PINCH_END nxt)).2 =
        (handle_pinch_event H cfg i.gesture_pinch_event nxt false).2) := by
  have hb : (handle_pinch_event H cfg p0 gbegin true).1.executed = false := rfl
  -- what the monotonicity gives
  have hsorted := hmono
  simp only [List.Sorted, List.map_cons, List.map_append, List.cons_append, List.map_nil,
    List.pairwise_cons, List.pairwise_append, List.mem_append, List.mem_map, List.mem_cons,
    List.mem_singleton, List.not_mem_nil, or_false] at hsorted
  have hle : ∀ e ∈ pre, e.scale ≤ 1 := by
    intro e he
    have := hsorted.1 e.scale (Or.inl ⟨e, he, rfl⟩)
    rw [hfirst] at this
    exact this
  have hnxt : nxt.scale ≤ g.scale := by
    have := hsorted.2.2.1.1 nxt.scale rfl
    exact this
  -- the first update, at scale 1.0
  have hstep1 : handle_pinch_event H cfg (handle_pinch_event H cfg p0 gbegin true).1 first false =
      ({ (handle_pinch_event H cfg p0 gbegin true).1 with scale := first.scale }, []) := by
    rw [pinch_update_one_shot_open H cfg _ first hone hb]
    unfold handle_one_shot_pinch
    rw [hfirst]
    by_cases hc : (1 : ℚ) > (handle_pinch_event H cfg p0 gbegin true).1.scale
    · have h1 : ¬ ((1 : ℚ) > 1 + cfg.pinch_threshold) := by
        intro h
        linarith
      rw [if_pos hc, if_neg h1]
    · have h2 : ¬ ((handle_pinch_event H cfg p0 gbegin true).1.scale < 1 - cfg.pinch_threshold) := by
        intro h
        have := not_lt.mp hc
        linarith
      rw [if_neg hc, if_neg h2]
  -- the updates of pre and the update g stay in the band or below it
  have hq := pinch_updates_one_shot_band H cfg
    { (handle_pinch_event H cfg p0 gbegin true).1 with scale := first.scale } pre hone rfl
    (by show 1 - cfg.pinch_threshold ≤ first.scale; rw [hfirst]; linarith)
    (fun e he => ⟨hpre e he, by have := hle e he; linarith⟩)
  have hrun : pinch_updates H cfg (handle_pinch_event H cfg p0 gbegin true).1 (first :: pre) =
      pinch_updates H cfg
        { (handle_pinch_event H cfg p0 gbegin true).1 with scale := first.scale } pre := by
    rw [pinch_updates_cons, hstep1]
    rfl
  rw [← hrun] at hq
  obtain ⟨hq1, hq2, hq3⟩ := hq
  obtain ⟨S, hS⟩ : ∃ S, pinch_updates H cfg (handle_pinch_event H cfg p0 gbegin true).1
      (first :: pre) = S := ⟨_, rfl⟩
  rw [hS] at hq1 hq2 hq3
  have hgq : handle_pinch_event H cfg S.1 g false = ({ S.1 with scale := g.scale }, []) :=
    pinch_update_one_shot_band H cfg S.1 g hone hq2 hq3 (by linarith)
  have hthrough : pinch_updates H cfg (handle_pinch_event H cfg p0 gbegin true).1
      (first :: pre ++ [g]) = ({ S.1 with scale := g.scale }, []) := by
    have happ : first :: pre ++ [g] = (first :: pre) ++ [g] := rfl
    rw [happ, pinch_updates_append, hS, hq1, pinch_updates_cons, hgq]
    rfl
  -- the next event runs pinch-out
  have hfire : handle_pinch_event H cfg { S.1 with scale := g.scale } nxt false =
      ({ S.1 with executed := true, scale := nxt.scale },
        [Effect.pinch_command pinch.PINCH_OUT]) := by
    have hopen := pinch_update_one_shot_open H cfg { S.1 with scale := g.scale } nxt hone hq2
    rw [hopen]
    unfold handle_one_shot_pinch
    have hc : ¬ (nxt.scale > g.scale) := not_lt.mpr hnxt
    have hlow : g.scale < 1 - cfg.pinch_threshold := hg
    show ({ (if nxt.scale > g.scale then _ else
      if g.scale < 1 - cfg.pinch_threshold then _ else _ : gesture_pinch_event × List Effect).1
        with scale := nxt.scale }, _) = _
    rw [if_neg hc, if_pos hlow]
  refine ⟨by rw [hthrough], by rw [hthrough, hfire], ?_, fun i => rfl⟩
  have happ : first :: pre ++ g :: nxt :: post = (first :: pre ++ [g]) ++ (nxt :: post) := by
    simp
  rw [happ, pinch_updates_append, hthrough, pinch_updates_cons, hfire,
    pinch_updates_one_shot_fired H cfg _ post hone rfl]
  rfl

/-- Witness for C12 (amended) with threshold 0.25 on the header `input_h`:
the updates [1.0, 0.7] perform nothing, and the pinch-end event carrying 0.7
that follows them runs pinch-out, once. -/
theorem pinch_one_shot_shrinking_witness :
    (pinch_updates input_h settings_one_shot
      (handle_pinch_event input_h settings_one_shot (Input.Input input_h).gesture_pinch_event
        (gesture_with 2 1) true).1
      (gesture_with 2 1 :: [] ++ [gesture_with 2 (7 / 10)])).2 = [] ∧
    (pinch_updates input_h settings_one_shot
      (handle_pinch_event input_h settings_one_shot (Input.Input input_h).gesture_pinch_event
        (gesture_with 2 1) true).1
      (gesture_with 2 1 :: [] ++ gesture_with 2 (7 / 10) :: gesture_with 2 (7 / 10) :: [])).2 =
      [Effect.pinch_command pinch.PINCH_OUT] := by
  have h := pinch_one_shot_shrinking input_h settings_one_shot rfl
    (by norm_num [settings_one_shot])
    (Input.Input input_h).gesture_pinch_event (gesture_with 2 1) (gesture_with 2 1)
    (gesture_with 2 (7 / 10)) (gesture_with 2 (7 / 10)) [] [] rfl
    (by norm_num [List.Sorted, gesture_with]) (by simp)
    (by norm_num [settings_one_shot, gesture_with])
  exact ⟨h.1, h.2.2.1⟩

end Gebaar
